import Mathlib

/-!
  Verification development for the deterministic diet-generation and
  weekly-simulation core of the `ai-generated-users` repository.

  The Python sources are shallowly embedded: pure numeric code is translated
  to functions over `ℚ` (Python floats are modelled by exact rationals, with
  Python's `round`/format rounding modelled as round-half-to-even on exact
  values), loosely-typed JSON-ish dictionaries become `String → Option PyVal`
  maps or ordered association lists, and the Mersenne-Twister randomness
  consumed by the code is abstracted as an explicit stream of draws in
  `[0, 1)` threaded through each function in the exact order the source
  consumes them.  Fallible code returns `Option`.
-/

namespace AiUsers

/-! ## Python rounding

  `round(x, nd)` and `float(f"{x:.nd f}")` both round half to even.  Over the
  exact rationals used here this is `rhe` scaled by a power of ten. -/

/-- Round a rational to the nearest integer, ties to even: the behaviour of
Python's `round` on exactly representable values. -/
def rhe (x : ℚ) : ℤ :=
  let f := ⌊x⌋
  let r := x - (f : ℚ)
  if r < 1/2 then f
  else if 1/2 < r then f + 1
  else if 2 ∣ f then f else f + 1

/-- Python's `round(x, nd)` over exact rationals. -/
def pyRound (nd : ℕ) (x : ℚ) : ℚ :=
  (rhe (x * (10 : ℚ) ^ nd) : ℚ) / (10 : ℚ) ^ nd

theorem rhe_intCast (n : ℤ) : rhe (n : ℚ) = n := by
  unfold rhe
  simp

theorem abs_sub_rhe (x : ℚ) : |x - (rhe x : ℚ)| ≤ 1/2 := by
  unfold rhe
  have h0 : (⌊x⌋ : ℚ) ≤ x := Int.floor_le x
  have h1 : x < (⌊x⌋ : ℚ) + 1 := Int.lt_floor_add_one x
  by_cases hlt : x - (⌊x⌋ : ℚ) < 1/2
  · simp only [hlt, if_true]
    rw [abs_le]
    constructor <;> linarith
  · simp only [hlt, if_false]
    by_cases hgt : 1/2 < x - (⌊x⌋ : ℚ)
    · simp only [hgt, if_true]
      rw [abs_le]
      push_cast
      constructor <;> linarith
    · simp only [hgt, if_false]
      have heq : x - (⌊x⌋ : ℚ) = 1/2 := le_antisymm (not_lt.mp hgt) (not_lt.mp hlt)
      by_cases hev : 2 ∣ ⌊x⌋
      · simp only [hev, if_true]
        rw [abs_le]
        constructor <;> linarith
      · simp only [hev, if_false]
        rw [abs_le]
        push_cast
        constructor <;> linarith

theorem abs_sub_pyRound (nd : ℕ) (x : ℚ) :
    |x - pyRound nd x| ≤ 1 / (2 * (10 : ℚ) ^ nd) := by
  unfold pyRound
  have hp : (0 : ℚ) < (10 : ℚ) ^ nd := by positivity
  have h := abs_sub_rhe (x * (10 : ℚ) ^ nd)
  have hx : x - (rhe (x * (10 : ℚ) ^ nd) : ℚ) / (10 : ℚ) ^ nd
      = (x * (10 : ℚ) ^ nd - (rhe (x * (10 : ℚ) ^ nd) : ℚ)) / (10 : ℚ) ^ nd := by
    field_simp
  rw [hx, abs_div, abs_of_pos hp, div_le_div_iff₀ hp (by positivity)]
  calc |x * (10 : ℚ) ^ nd - (rhe (x * (10 : ℚ) ^ nd) : ℚ)| * (2 * (10 : ℚ) ^ nd)
      ≤ (1/2) * (2 * (10 : ℚ) ^ nd) := by
        apply mul_le_mul_of_nonneg_right h (by positivity)
    _ = 1 * (10 : ℚ) ^ nd := by ring

theorem pyRound_eq_of_int_mul (nd : ℕ) (x : ℚ) (k : ℤ)
    (h : x * (10 : ℚ) ^ nd = (k : ℚ)) : pyRound nd x = x := by
  unfold pyRound
  rw [h, rhe_intCast]
  have hp : ((10 : ℚ) ^ nd) ≠ 0 := by positivity
  field_simp at h ⊢
  linarith [h]

theorem pyRound_den (nd : ℕ) (x : ℚ) :
    pyRound nd x * (10 : ℚ) ^ nd = ((rhe (x * (10 : ℚ) ^ nd) : ℤ) : ℚ) := by
  unfold pyRound
  have hp : ((10 : ℚ) ^ nd) ≠ 0 := by positivity
  field_simp

theorem pyRound_idem (nd : ℕ) (x : ℚ) : pyRound nd (pyRound nd x) = pyRound nd x :=
  pyRound_eq_of_int_mul nd _ _ (pyRound_den nd x)

theorem pyRound_ge (nd : ℕ) (x : ℚ) :
    x - 1 / (2 * (10 : ℚ) ^ nd) ≤ pyRound nd x := by
  have h := abs_sub_pyRound nd x
  rw [abs_le] at h
  linarith [h.2]

theorem pyRound_le (nd : ℕ) (x : ℚ) :
    pyRound nd x ≤ x + 1 / (2 * (10 : ℚ) ^ nd) := by
  have h := abs_sub_pyRound nd x
  rw [abs_le] at h
  linarith [h.1]

/-- Shifting by an integer commutes with banker's rounding away from the
half-way tie (at a tie the even-ness of the shifted floor may differ). -/
theorem rhe_intCast_add (n : ℤ) (x : ℚ) (h : x - (⌊x⌋ : ℚ) ≠ 1/2) :
    rhe ((n : ℚ) + x) = n + rhe x := by
  unfold rhe
  have hf : ⌊(n : ℚ) + x⌋ = n + ⌊x⌋ := by
    rw [add_comm, Int.floor_add_int x n]; ring
  have hr : (n : ℚ) + x - (↑(n + ⌊x⌋) : ℚ) = x - (⌊x⌋ : ℚ) := by
    push_cast; ring
  simp only [hf, hr]
  by_cases hlt : x - (⌊x⌋ : ℚ) < 1/2
  · rw [if_pos hlt, if_pos hlt]
  · by_cases hgt : 1/2 < x - (⌊x⌋ : ℚ)
    · rw [if_neg hlt, if_neg hlt, if_pos hgt, if_pos hgt]
      ring
    · exact absurd (le_antisymm (not_lt.mp hgt) (not_lt.mp hlt)) h

/-! ## Python values and lenient coercions

  A `PyVal` is the scalar slice of the loosely-typed values the Python code
  passes around in its JSON-ish dicts.  Non-scalar values (nested dicts,
  lists) are represented by `vother`, which carries an identity tag and its
  Python truthiness; the sources only ever coerce such values to a default or
  stringify them. -/

inductive PyVal where
  | vnone : PyVal
  | vnum : ℚ → PyVal
  | vbool : Bool → PyVal
  | vstr : String → PyVal
  | vother : ℕ → Bool → PyVal
deriving DecidableEq

/-- Whitespace for `str.strip()` (ASCII slice of Python's whitespace set). -/
def wsChar (c : Char) : Bool :=
  c == ' ' || c == '\t' || c == '\n' || c == '\r' || c == '\x0b' || c == '\x0c'

/-- Trim characters satisfying `p` from both ends of a list. -/
def stripList (p : Char → Bool) (l : List Char) : List Char :=
  ((l.dropWhile p).reverse.dropWhile p).reverse

/-- Python's `str.strip()` (ASCII whitespace). -/
def pyStrip (s : String) : String := String.mk (stripList wsChar s.data)

theorem dropWhile_dropWhile (p : Char → Bool) (l : List Char) :
    (l.dropWhile p).dropWhile p = l.dropWhile p := by
  induction l with
  | nil => rfl
  | cons a t ih =>
    by_cases h : p a
    · simp [List.dropWhile_cons, h, ih]
    · simp [List.dropWhile_cons, h]

theorem dropWhile_eq_self_of_head (p : Char → Bool) (l : List Char)
    (h : ∀ a ∈ l.head?, ¬ p a) : l.dropWhile p = l := by
  cases l with
  | nil => rfl
  | cons a t =>
    have ha : ¬ p a := h a rfl
    simp [List.dropWhile_cons, ha]

theorem head?_dropWhile (p : Char → Bool) (l : List Char) :
    ∀ a ∈ (l.dropWhile p).head?, ¬ p a := by
  induction l with
  | nil => intro a ha; simp at ha
  | cons b t ih =>
    by_cases h : p b
    · simpa [List.dropWhile_cons, h] using ih
    · intro a ha
      simp [List.dropWhile_cons, h] at ha
      exact ha ▸ h

theorem getLast?_dropWhile (p : Char → Bool) (l : List Char)
    (h : l.dropWhile p ≠ []) : (l.dropWhile p).getLast? = l.getLast? := by
  induction l with
  | nil => simp at h
  | cons b t ih =>
    by_cases hb : p b
    · rw [List.dropWhile_cons, if_pos hb] at h ⊢
      have ht : t ≠ [] := by
        intro he; rw [he] at h; simp at h
      obtain ⟨c, t', rfl⟩ := List.exists_cons_of_ne_nil ht
      rw [ih h, List.getLast?_cons_cons]
    · rw [List.dropWhile_cons, if_neg hb]

theorem stripList_idem (p : Char → Bool) (l : List Char) :
    stripList p (stripList p l) = stripList p l := by
  unfold stripList
  set m := l.dropWhile p with hm
  set Y := m.reverse.dropWhile p with hY
  have hA : Y.reverse.dropWhile p = Y.reverse := by
    apply dropWhile_eq_self_of_head
    intro a ha
    rw [List.head?_reverse] at ha
    by_cases hYe : Y = []
    · rw [hYe] at ha; simp at ha
    · have h1 : Y.getLast? = m.reverse.getLast? := getLast?_dropWhile p m.reverse hYe
      rw [h1, List.getLast?_reverse] at ha
      exact head?_dropWhile p l a (by rw [← hm]; exact ha)
  rw [hA, List.reverse_reverse, hY, dropWhile_dropWhile]

theorem pyStrip_idem (s : String) : pyStrip (pyStrip s) = pyStrip s := by
  unfold pyStrip
  rw [stripList_idem]

/-! ## Lenient numeric parsing (Python `float(str)`)

  Models Python's `float` applied to a string for finite decimal literals
  with an optional sign, decimal point and exponent.  Pythonic inputs outside
  this fragment (`inf`, `nan`, digit-group underscores) are out of the
  modelled scope and parse to `none`. -/

/-- Numeric value of a digit string (caller checks the digits). -/
def digitsToNat (l : List Char) : ℕ :=
  l.foldl (fun a c => a * 10 + (c.toNat - 48)) 0

/-- Parse an (optionally signed) digit run, e.g. an exponent. -/
def parseSignedDigits (l : List Char) : Option ℤ :=
  let (sg, l₁) : ℤ × List Char :=
    match l with
    | '+' :: t => (1, t)
    | '-' :: t => (-1, t)
    | t => (1, t)
  if l₁ ≠ [] ∧ l₁.all Char.isDigit then some (sg * digitsToNat l₁) else none

/-- Parse an unsigned decimal mantissa `digits[.digits]` (at least one digit). -/
def parseMantissa (l : List Char) : Option ℚ :=
  match l.findIdx? (· == '.') with
  | none =>
      if l ≠ [] ∧ l.all Char.isDigit then some (digitsToNat l) else none
  | some j =>
      let ip := l.take j
      let fp := l.drop (j + 1)
      if (ip ≠ [] ∨ fp ≠ []) ∧ ip.all Char.isDigit ∧ fp.all Char.isDigit then
        some ((digitsToNat ip : ℚ) + (digitsToNat fp : ℚ) / (10 : ℚ) ^ fp.length)
      else none

/-- Python `float(s)` on the finite-decimal fragment. -/
def pyFloatParse (s : String) : Option ℚ :=
  let l := stripList wsChar s.data
  let (sg, l₁) : ℚ × List Char :=
    match l with
    | '+' :: t => (1, t)
    | '-' :: t => (-1, t)
    | t => (1, t)
  match l₁.findIdx? (fun c => c == 'e' || c == 'E') with
  | none => (parseMantissa l₁).map (fun m => sg * m)
  | some i => do
      let m ← parseMantissa (l₁.take i)
      let e ← parseSignedDigits (l₁.drop (i + 1))
      pure (sg * m * (10 : ℚ) ^ (e : ℤ))

/-- Python truthiness of a `PyVal`. -/
def truthy : PyVal → Bool
  | .vnone => false
  | .vnum q => decide (q ≠ 0)
  | .vbool b => b
  | .vstr s => decide (s ≠ "")
  | .vother _ t => t

/-- Placeholder decimal rendering of a rational, standing in for Python's
`str` on numbers.  It is used only where the source stringifies a number into
a free-text label; no claim depends on its exact spelling. -/
def qstr (q : ℚ) : String :=
  if q.den = 1 then toString q.num
  else toString q.num ++ "/" ++ toString q.den

/-- Python `str()` of a `PyVal`. -/
def pyStr : PyVal → String
  | .vnone => "None"
  | .vnum q => qstr q
  | .vbool b => if b then "True" else "False"
  | .vstr s => s
  | .vother n _ => "<object " ++ toString n ++ ">"

/-- `_f` from `utils_json_v12.py`: `None` and blank strings give the default,
otherwise `float(v)` with any failure giving the default. -/
def pyFD (d : ℚ) : PyVal → ℚ
  | .vnone => d
  | .vnum q => q
  | .vbool b => if b then 1 else 0
  | .vstr s => if pyStrip s = "" then d else (pyFloatParse s).getD d
  | .vother _ _ => d

/-- `to_number` from `acegpt_client.py`: numbers (and bools, which are `int`
instances) pass through, strings are parsed leniently, everything else is 0. -/
def toNumber : PyVal → ℚ
  | .vnum q => q
  | .vbool b => if b then 1 else 0
  | .vstr s => (pyFloatParse s).getD 0
  | _ => 0

/-- `_to_float` from `utils_sim_dual.py`: numbers pass through, everything
else goes through `float(str(x).strip())` with the default on failure (for
`None` and non-scalars the stringification never parses). -/
def toFloatV (d : ℚ) : PyVal → ℚ
  | .vnone => d
  | .vnum q => q
  | .vbool b => if b then 1 else 0
  | .vstr s => (pyFloatParse s).getD d
  | .vother _ _ => d

/-- Python `int()` truncation (toward zero) of an exact rational. -/
def ratTrunc (q : ℚ) : ℤ := q.num / (q.den : ℤ)

/-- Substring test, Python's `needle in hay`. -/
def strContains (hay needle : String) : Bool :=
  hay.data.tails.any (fun suf => needle.data.isPrefixOf suf)

/-- A JSON-ish Python dict, observed extensionally (Python `==` on dicts
ignores insertion order). -/
def Jmap := String → Option PyVal

/-- Build a `Jmap` from explicit bindings (first binding wins). -/
def jmapOf (l : List (String × PyVal)) : Jmap := fun k =>
  (l.find? (fun p => p.1 == k)).map (·.2)

/-- The empty dict. -/
def jempty : Jmap := fun _ => none

/-- Dict value with Python's `None`-ish default for a missing key. -/
def getV (x : Jmap) (k : String) : PyVal := (x k).getD .vnone

/-! ## `ensure_diet_shape` (`experiments/exp2_acegpt_claude/utils_json_v12.py`)

  The normalizer coerces the six totals, the four meal labels and the 24
  per-meal numbers, recomputes each total from the meals when (and only when)
  that total coerced to `0.0`, and defaults the `Note`.  The nested-dict
  branch of `_pull_nested_meal_num` is dead code: the meal-name key is
  overwritten with a label string before any per-meal number is pulled, so
  the nested lookup can never see a dict; per-meal numbers therefore coerce
  the flat key when present and default to 0 otherwise. -/

def SAUDI_MEAL_NAMES : List String := [
  "Masoub (banana+dates+milk)",
  "Chicken Kabsa (lean rice)",
  "Jareesh with laban",
  "Ful medames + tamees",
  "Balila cup (chickpeas)",
  "Grilled Hammour + rice + salad",
  "Labneh + cucumbers + olives + bread",
  "Tuna salad + lemon + olive oil",
  "Margoog (light) + salad",
  "Thareed (lean beef + veg)",
  "Harees (light) + salad",
  "Egg shakshouka + bread",
  "Date + laban snack"]

def totalKeys : List String :=
  ["Total_kcal_target_kcal", "Total_carbs_g", "Total_fat_g",
   "Total_protein_g", "Total_fiber_g", "Total_sodium_mg"]

def mealTags : List String := ["1st", "2nd", "3rd", "4th"]

def mealNumTags : List String :=
  ["kcal_target_kcal", "carbs_g", "fat_g", "protein_g", "fiber_g", "sodium_mg"]

def nameKeyOf (m : String) : String := m ++ "_meal"

def numKeyOf (m mk : String) : String := m ++ "_meal_" ++ mk

def nameKeys : List String := mealTags.map nameKeyOf

def numKeys : List String :=
  mealTags.flatMap (fun m => mealNumTags.map (numKeyOf m))

/-- Pairing of each total key with its per-meal field suffix. -/
def totalPairs : List (String × String) :=
  [("Total_kcal_target_kcal", "kcal_target_kcal"),
   ("Total_carbs_g", "carbs_g"),
   ("Total_fat_g", "fat_g"),
   ("Total_protein_g", "protein_g"),
   ("Total_fiber_g", "fiber_g"),
   ("Total_sodium_mg", "sodium_mg")]

def mkOfTotal (tk : String) : String := (totalPairs.lookup tk).getD ""

/-- Per-meal numeric field after normalization: the flat key coerced
leniently, 0 when missing (see the dead-code note above). -/
def mealNumVal (x : Jmap) (m mk : String) : ℚ :=
  pyFD 0 (getV x (numKeyOf m mk))

/-- Sum of one per-meal field over the four meals. -/
def mealSum (x : Jmap) (mk : String) : ℚ :=
  (mealTags.map (fun m => mealNumVal x m mk)).sum

/-- A total after normalization: the lenient coercion of the input total,
replaced by the sum of the four (already-normalized) per-meal values exactly
when the coercion is `0.0`. -/
def totVal (x : Jmap) (tk : String) : ℚ :=
  let t0 := pyFD 0 (getV x tk)
  if t0 = 0 then mealSum x (mkOfTotal tk) else t0

/-- `_ensure_meal_label` on one value: keep a stripped non-blank string,
otherwise the default label. -/
def labelOfVal (v : PyVal) (dflt : String) : String :=
  match v with
  | .vstr s => if pyStrip s = "" then dflt else pyStrip s
  | _ => dflt

/-- `_ensure_meal_label` for slot `i` (0-based). -/
def labelAt (x : Jmap) (i : ℕ) : String :=
  labelOfVal (getV x (nameKeys.getD i "")) (SAUDI_MEAL_NAMES.getD (i % 13) "")

def noteDefault : String :=
  "Saudi-inspired plan. Adjust portions if training load changes."

/-- The `Note` after normalization: kept when truthy, defaulted otherwise. -/
def noteVal (x : Jmap) : PyVal :=
  let v := getV x "Note"
  if truthy v then v else .vstr noteDefault

/-- `ensure_diet_shape`: the final state of the dict after the in-place
normalization pass, as a pure map. -/
def ensureDietShape (x : Jmap) : Jmap := fun k =>
  if k ∈ totalKeys then some (.vnum (totVal x k))
  else if k ∈ nameKeys then some (.vstr (labelAt x (nameKeys.indexOf k)))
  else if k ∈ numKeys then some (.vnum (pyFD 0 (getV x k)))
  else if k = "Note" then some (noteVal x)
  else x k

theorem numKeys_disjoint : ∀ k ∈ numKeys, k ∉ totalKeys ∧ k ∉ nameKeys := by decide

theorem getV_ensure_total (x : Jmap) (k : String) (hk : k ∈ totalKeys) :
    getV (ensureDietShape x) k = .vnum (totVal x k) := by
  simp [getV, ensureDietShape, hk]

theorem ensure_num (x : Jmap) (k : String) (hk : k ∈ numKeys) :
    ensureDietShape x k = some (.vnum (pyFD 0 (getV x k))) := by
  obtain ⟨h1, h2⟩ := numKeys_disjoint k hk
  simp [ensureDietShape, hk, h1, h2]

theorem mealNumVal_ensure (x : Jmap) (m mk : String)
    (hm : m ∈ mealTags) (hmk : mk ∈ mealNumTags) :
    mealNumVal (ensureDietShape x) m mk = mealNumVal x m mk := by
  have hk : numKeyOf m mk ∈ numKeys :=
    List.mem_flatMap.mpr ⟨m, hm, List.mem_map_of_mem _ hmk⟩
  unfold mealNumVal
  rw [show getV (ensureDietShape x) (numKeyOf m mk)
        = .vnum (pyFD 0 (getV x (numKeyOf m mk))) by
      simp [getV, ensure_num x _ hk]]
  rfl

theorem mealSum_ensure (x : Jmap) (mk : String) (hmk : mk ∈ mealNumTags) :
    mealSum (ensureDietShape x) mk = mealSum x mk := by
  unfold mealSum mealTags
  simp only [List.map_cons, List.map_nil]
  rw [mealNumVal_ensure x _ _ (by decide) hmk, mealNumVal_ensure x _ _ (by decide) hmk,
      mealNumVal_ensure x _ _ (by decide) hmk, mealNumVal_ensure x _ _ (by decide) hmk]

theorem totVal_zero_mealSum (x : Jmap) (k : String) (h0 : totVal x k = 0) :
    mealSum x (mkOfTotal k) = 0 := by
  unfold totVal at h0
  by_cases ht : pyFD 0 (getV x k) = 0
  · rwa [if_pos ht] at h0
  · rw [if_neg ht] at h0; exact absurd h0 ht

theorem totVal_ensure (x : Jmap) (k : String) (hk : k ∈ totalKeys) :
    totVal (ensureDietShape x) k = totVal x k := by
  have hmk : mkOfTotal k ∈ mealNumTags := by fin_cases hk <;> decide
  unfold totVal
  rw [getV_ensure_total x k hk]
  show (if totVal x k = 0 then mealSum (ensureDietShape x) (mkOfTotal k)
        else totVal x k) = totVal x k
  by_cases h0 : totVal x k = 0
  · rw [if_pos h0, mealSum_ensure x _ hmk, totVal_zero_mealSum x k h0, h0]
  · rw [if_neg h0]

theorem labelAt_stripped (x : Jmap) (i : ℕ) (hi : i < 4) :
    pyStrip (labelAt x i) = labelAt x i ∧ labelAt x i ≠ "" := by
  have hdef : pyStrip (SAUDI_MEAL_NAMES.getD (i % 13) "")
      = SAUDI_MEAL_NAMES.getD (i % 13) ""
      ∧ SAUDI_MEAL_NAMES.getD (i % 13) "" ≠ "" := by
    interval_cases i <;> exact ⟨by decide, by decide⟩
  unfold labelAt
  cases hv : getV x (nameKeys.getD i "") with
  | vstr s =>
    by_cases hs : pyStrip s = ""
    · simp only [labelOfVal, if_pos hs]; exact hdef
    · simp only [labelOfVal, if_neg hs]; exact ⟨pyStrip_idem s, hs⟩
  | vnone => exact hdef
  | vnum q => exact hdef
  | vbool b => exact hdef
  | vother n t => exact hdef

theorem noteVal_truthy (x : Jmap) : truthy (noteVal x) = true := by
  unfold noteVal
  by_cases h : truthy (getV x "Note")
  · simp [h]
  · simp only [h, if_false, Bool.false_eq_true]
    decide

theorem labelAt_ensure (x : Jmap) (i : ℕ) (hi : i < 4)
    (hget : getV (ensureDietShape x) (nameKeys.getD i "") = .vstr (labelAt x i)) :
    labelAt (ensureDietShape x) i = labelAt x i := by
  obtain ⟨hstr, hne⟩ := labelAt_stripped x i hi
  show labelOfVal (getV (ensureDietShape x) (nameKeys.getD i ""))
      (SAUDI_MEAL_NAMES.getD (i % 13) "") = labelAt x i
  rw [hget]
  show (if pyStrip (labelAt x i) = "" then SAUDI_MEAL_NAMES.getD (i % 13) ""
        else pyStrip (labelAt x i)) = labelAt x i
  rw [hstr, if_neg hne]

theorem ensure_total (x : Jmap) (k : String) (hk : k ∈ totalKeys) :
    ensureDietShape x k = some (.vnum (totVal x k)) := by
  simp [ensureDietShape, hk]

theorem ensure_name (x : Jmap) (k : String) (hk : k ∈ nameKeys) :
    ensureDietShape x k = some (.vstr (labelAt x (nameKeys.indexOf k))) := by
  have h1 : k ∉ totalKeys := by fin_cases hk <;> decide
  simp [ensureDietShape, h1, hk]

theorem ensure_note (x : Jmap) : ensureDietShape x "Note" = some (noteVal x) := by
  unfold ensureDietShape
  rw [if_neg (by decide), if_neg (by decide), if_neg (by decide), if_pos rfl]

theorem ensure_other (x : Jmap) (k : String) (h1 : k ∉ totalKeys)
    (h2 : k ∉ nameKeys) (h3 : k ∉ numKeys) (h4 : k ≠ "Note") :
    ensureDietShape x k = x k := by
  unfold ensureDietShape
  rw [if_neg h1, if_neg h2, if_neg h3, if_neg h4]

/-- Idempotence of the diet-shape normalizer: a second pass changes nothing
on any input dict (claim C5 uses this with the schema normalizer below). -/
theorem ensureDietShape_idem (x : Jmap) :
    ensureDietShape (ensureDietShape x) = ensureDietShape x := by
  funext k
  by_cases hTot : k ∈ totalKeys
  · rw [ensure_total _ k hTot, ensure_total x k hTot, totVal_ensure x k hTot]
  · by_cases hName : k ∈ nameKeys
    · have hidx : nameKeys.indexOf k < 4 := by fin_cases hName <;> decide
      have hgetD : nameKeys.getD (nameKeys.indexOf k) "" = k := by
        fin_cases hName <;> decide
      have hget : getV (ensureDietShape x) (nameKeys.getD (nameKeys.indexOf k) "")
          = .vstr (labelAt x (nameKeys.indexOf k)) := by
        rw [hgetD]
        unfold getV
        rw [ensure_name x k hName]
        rfl
      rw [ensure_name _ k hName, ensure_name x k hName,
        labelAt_ensure x (nameKeys.indexOf k) hidx hget]
    · by_cases hNum : k ∈ numKeys
      · rw [ensure_num _ k hNum, ensure_num x k hNum]
        have hg : getV (ensureDietShape x) k = .vnum (pyFD 0 (getV x k)) := by
          unfold getV
          rw [ensure_num x k hNum]
          rfl
        rw [hg]
        rfl
      · by_cases hNote : k = "Note"
        · subst hNote
          rw [ensure_note, ensure_note]
          have hg : getV (ensureDietShape x) "Note" = noteVal x := by
            unfold getV
            rw [ensure_note]
            rfl
          have h1 : noteVal (ensureDietShape x) = noteVal x := by
            unfold noteVal
            rw [hg, if_pos (noteVal_truthy x)]
            rfl
          rw [h1]
        · exact ensure_other (ensureDietShape x) k hTot hName hNum hNote

/-! ## `normalize_to_schema` (`experiments/exp2_acegpt_claude/acegpt_client.py`)

  This normalizer is order-sensitive (two distinct input keys may
  canonicalize to the same schema key, and the later one wins), so here
  dicts are ordered association lists with Python's dict semantics:
  assignment to an existing key replaces the value in place, a fresh key is
  appended. -/

abbrev Alist := List (String × PyVal)

def keysOf (l : Alist) : List String := l.map (·.1)

def aget (l : Alist) (k : String) : Option PyVal :=
  (l.find? (fun p => p.1 == k)).map (·.2)

/-- Python dict assignment `d[k] = v`: replace the value in place when the
key is present (Python dicts hold each key once), append otherwise. -/
def aset : Alist → String → PyVal → Alist
  | [], k, v => [(k, v)]
  | p :: t, k, v => if p.1 == k then (k, v) :: t else p :: aset t k v

def REQUIRED_FIELDS : List String :=
  "Note" :: totalKeys ++
    mealTags.flatMap (fun m => nameKeyOf m :: mealNumTags.map (numKeyOf m))

/-- `k.lower().strip(" ,:")` used to build the canonicalization table
(ASCII lowering, applied characterwise; the schema keys are ASCII). -/
def lowerStripKey (s : String) : String :=
  String.mk (stripList (fun c => c == ' ' || c == ',' || c == ':')
    (s.data.map Char.toLower))

/-- Lookup in the `canon` table: the (unique) required field whose
lower-stripped spelling matches. -/
def canonGet (lk : String) : Option String :=
  REQUIRED_FIELDS.find? (fun r => lowerStripKey r == lk)

/-- `canon.get(lk, k)`: canonicalize a key, keeping unknown keys as-is. -/
def canonKey (k : String) : String := (canonGet (lowerStripKey k)).getD k

/-- Meal-name coercion to a string: keep strings, `None`/missing become `""`,
anything else is stringified. -/
def strCoerceS (v : Option PyVal) : String :=
  match v with
  | some (.vstr s) => s
  | some .vnone => ""
  | none => ""
  | some w => pyStr w

def isStrV : Option PyVal → Bool
  | some (.vstr _) => true
  | _ => false

def strEndsWith (s suffix : String) : Bool :=
  suffix.data.reverse.isPrefixOf s.data.reverse

/-- One numeric fix-up step `norm[k] = to_number(norm.get(k))`. -/
def fixNum (acc : Alist) (k : String) : Alist :=
  aset acc k (.vnum (toNumber ((aget acc k).getD .vnone)))

/-- The meal-name fix-up step. -/
def fixName (acc : Alist) (m : String) : Alist :=
  aset acc (nameKeyOf m) (.vstr (strCoerceS (aget acc (nameKeyOf m))))

/-- One `MEAL_KEYS` row: name coercion then the six numeric coercions. -/
def fixMeal (acc : Alist) (m : String) : Alist :=
  mealNumTags.foldl (fun a mk => fixNum a (numKeyOf m mk)) (fixName acc m)

/-- The missing-key fill `if k not in norm: norm[k] = "" | 0.0`. -/
def fillKey (acc : Alist) (k : String) : Alist :=
  if aget acc k = none then
    aset acc k (if strEndsWith k "_meal" then .vstr "" else .vnum 0)
  else acc

/-- Stage (a) of `normalize_to_schema`: rebuild the dict with canonicalized
key names (a later input key canonicalizing to the same schema key wins). -/
def nstage0 (parsed : Alist) : Alist :=
  parsed.foldl (fun acc p => aset acc (canonKey p.1) p.2) []

/-- Stage (b): force `Note` to be a string. -/
def nstage1 (parsed : Alist) : Alist :=
  if isStrV (aget (nstage0 parsed) "Note") then nstage0 parsed
  else aset (nstage0 parsed) "Note" (.vstr "")

/-- Stage (c): the `MEAL_KEYS` rows. -/
def nstage2 (parsed : Alist) : Alist := mealTags.foldl fixMeal (nstage1 parsed)

/-- Stage (d): the six totals. -/
def nstage3 (parsed : Alist) : Alist := totalKeys.foldl fixNum (nstage2 parsed)

/-- `normalize_to_schema`: stages (a)–(d) then the missing-key fill. -/
def normalizeToSchema (parsed : Alist) : Alist :=
  REQUIRED_FIELDS.foldl fillKey (nstage3 parsed)

theorem aget_nil (k : String) : aget [] k = none := rfl

theorem aget_cons (p : String × PyVal) (t : Alist) (k : String) :
    aget (p :: t) k = if p.1 == k then some p.2 else aget t k := by
  simp only [aget, List.find?_cons]
  by_cases h : p.1 == k
  · simp [h]
  · simp [h]

theorem aget_aset_same (l : Alist) (k : String) (v : PyVal) :
    aget (aset l k v) k = some v := by
  induction l with
  | nil => simp [aset, aget_cons]
  | cons p t ih =>
    unfold aset
    by_cases hp : p.1 == k
    · rw [if_pos hp, aget_cons]
      simp
    · rw [if_neg hp, aget_cons, if_neg hp]
      exact ih

theorem aget_aset_ne (l : Alist) (k k' : String) (v : PyVal) (h : k' ≠ k) :
    aget (aset l k v) k' = aget l k' := by
  induction l with
  | nil =>
    simp only [aset, aget_cons, aget_nil]
    rw [if_neg (by simp [Ne.symm h])]
  | cons p t ih =>
    unfold aset
    by_cases hp : p.1 == k
    · have hp' : p.1 = k := by simpa using hp
      rw [if_pos hp, aget_cons, aget_cons,
        if_neg (by simp [Ne.symm h]), if_neg (by simp [hp', Ne.symm h])]
    · rw [if_neg hp, aget_cons, aget_cons]
      by_cases hk' : p.1 == k'
      · rw [if_pos hk', if_pos hk']
      · rw [if_neg hk', if_neg hk', ih]

theorem keysOf_aset_subset (l : Alist) (k : String) (v : PyVal) :
    ∀ j ∈ keysOf (aset l k v), j ∈ keysOf l ∨ j = k := by
  induction l with
  | nil =>
    intro j hj
    simp only [aset, keysOf, List.map_cons, List.map_nil, List.mem_singleton] at hj
    exact Or.inr hj
  | cons p t ih =>
    intro j hj
    unfold aset at hj
    by_cases hp : p.1 == k
    · rw [if_pos hp] at hj
      simp only [keysOf, List.map_cons, List.mem_cons] at hj ⊢
      rcases hj with h | h
      · exact Or.inr h
      · exact Or.inl (Or.inr h)
    · rw [if_neg hp] at hj
      simp only [keysOf, List.map_cons, List.mem_cons] at hj ⊢
      rcases hj with h | h
      · exact Or.inl (Or.inl h)
      · rcases ih j h with h' | h'
        · exact Or.inl (Or.inr h')
        · exact Or.inr h'

theorem nodup_keysOf_aset (l : Alist) (k : String) (v : PyVal)
    (h : (keysOf l).Nodup) : (keysOf (aset l k v)).Nodup := by
  induction l with
  | nil => simp [aset, keysOf]
  | cons p t ih =>
    unfold aset
    simp only [keysOf, List.map_cons, List.nodup_cons] at h
    by_cases hp : p.1 == k
    · have hp' : p.1 = k := by simpa using hp
      rw [if_pos hp]
      simp only [keysOf, List.map_cons, List.nodup_cons]
      exact ⟨hp' ▸ h.1, h.2⟩
    · rw [if_neg hp]
      simp only [keysOf, List.map_cons, List.nodup_cons]
      refine ⟨fun hmem => ?_, ih h.2⟩
      rcases keysOf_aset_subset t k v p.1 hmem with h' | h'
      · exact h.1 h'
      · exact absurd (by simp [h']) hp

theorem aset_self (l : Alist) (k : String) (v : PyVal)
    (hnd : (keysOf l).Nodup) (h : aget l k = some v) : aset l k v = l := by
  induction l with
  | nil => simp [aget_nil] at h
  | cons p t ih =>
    simp only [keysOf, List.map_cons, List.nodup_cons] at hnd
    rw [aget_cons] at h
    unfold aset
    by_cases hp : p.1 == k
    · have hp' : p.1 = k := by simpa using hp
      rw [if_pos hp] at h
      rw [if_pos hp]
      injection h with h'
      rw [← h', ← hp']
    · rw [if_neg hp] at h
      rw [if_neg hp]
      rw [ih hnd.2 h]

theorem aset_append_of_not_mem (l : Alist) (k : String) (v : PyVal)
    (h : k ∉ keysOf l) : aset l k v = l ++ [(k, v)] := by
  induction l with
  | nil => rfl
  | cons p t ih =>
    simp only [keysOf, List.map_cons, List.mem_cons, not_or] at h
    unfold aset
    rw [if_neg (by simp [Ne.symm h.1]), List.cons_append, ih h.2]

theorem foldl_id {α : Type} (f : Alist → α → Alist) :
    ∀ (ks : List α) (acc : Alist), (∀ x ∈ ks, f acc x = acc) →
      List.foldl f acc ks = acc := by
  intro ks
  induction ks with
  | nil => intro acc _; rfl
  | cons x t ih =>
    intro acc h
    rw [List.foldl_cons, h x (List.mem_cons_self x t)]
    exact ih acc (fun y hy => h y (List.mem_cons_of_mem x hy))

theorem foldl_pres {α : Type} (f : Alist → α → Alist) (P : Alist → Prop) :
    ∀ (ks : List α) (acc : Alist),
      (∀ a x, x ∈ ks → P a → P (f a x)) → P acc →
      P (List.foldl f acc ks) := by
  intro ks
  induction ks with
  | nil => intro acc _ h; exact h
  | cons x t ih =>
    intro acc hstep h
    rw [List.foldl_cons]
    exact ih (f acc x) (fun a y hy => hstep a y (List.mem_cons_of_mem x hy))
      (hstep acc x (List.mem_cons_self x t) h)

theorem foldl_estab {α : Type} (f : Alist → α → Alist) (P : Alist → Prop) :
    ∀ (ks : List α) (acc : Alist) (x : α), x ∈ ks →
      (∀ a, P (f a x)) → (∀ a y, y ∈ ks → P a → P (f a y)) →
      P (List.foldl f acc ks) := by
  intro ks
  induction ks with
  | nil => intro acc x hx; simp at hx
  | cons y t ih =>
    intro acc x hx hest hpres
    rw [List.foldl_cons]
    rcases List.mem_cons.mp hx with rfl | hxt
    · exact foldl_pres f P t (f acc x)
        (fun a z hz => hpres a z (List.mem_cons_of_mem x hz)) (hest acc)
    · exact ih (f acc y) x hxt hest
        (fun a z hz => hpres a z (List.mem_cons_of_mem y hz))

/-! ### Canonicalization facts -/

theorem canonGet_mem {lk r : String} (h : canonGet lk = some r) :
    r ∈ REQUIRED_FIELDS :=
  List.mem_of_find?_eq_some h

theorem required_canon : ∀ r ∈ REQUIRED_FIELDS, canonKey r = r := by decide

theorem canonKey_stable (j : String) : canonKey (canonKey j) = canonKey j := by
  cases h : canonGet (lowerStripKey j) with
  | none =>
    have hj : canonKey j = j := by unfold canonKey; rw [h]; rfl
    rw [hj]
    exact hj
  | some r =>
    have hj : canonKey j = r := by unfold canonKey; rw [h]; rfl
    rw [hj]
    exact required_canon r (canonGet_mem h)

/-! ### Key invariants of the normalizer stages -/

def NodupK (l : Alist) : Prop := (keysOf l).Nodup

def StableK (l : Alist) : Prop := ∀ j ∈ keysOf l, canonKey j = j

theorem stableK_aset {l : Alist} {k : String} {v : PyVal}
    (h : StableK l) (hk : canonKey k = k) : StableK (aset l k v) := by
  intro j hj
  rcases keysOf_aset_subset l k v j hj with h' | h'
  · exact h j h'
  · exact h' ▸ hk

/-- Presence of a string value at a key. -/
def PStr (k : String) (l : Alist) : Prop := ∃ s, aget l k = some (.vstr s)

/-- Presence of a numeric value at a key. -/
def PNum (k : String) (l : Alist) : Prop := ∃ q, aget l k = some (.vnum q)

theorem PStr_aset_ne {k k' : String} {l : Alist} {v : PyVal} (hne : k ≠ k')
    (h : PStr k l) : PStr k (aset l k' v) := by
  obtain ⟨s, hs⟩ := h
  exact ⟨s, by rw [aget_aset_ne l k' k v hne, hs]⟩

theorem PNum_aset_ne {k k' : String} {l : Alist} {v : PyVal} (hne : k ≠ k')
    (h : PNum k l) : PNum k (aset l k' v) := by
  obtain ⟨q, hq⟩ := h
  exact ⟨q, by rw [aget_aset_ne l k' k v hne, hq]⟩

theorem PNum_fixNum (l : Alist) (k k' : String) (h : PNum k l) :
    PNum k (fixNum l k') := by
  by_cases he : k = k'
  · subst he
    exact ⟨_, aget_aset_same l k _⟩
  · exact PNum_aset_ne he h

theorem PNum_fixNum_self (l : Alist) (k : String) : PNum k (fixNum l k) :=
  ⟨_, aget_aset_same l k _⟩

theorem PStr_fixName (l : Alist) (k m : String) (h : PStr k l) :
    PStr k (fixName l m) := by
  by_cases he : k = nameKeyOf m
  · subst he
    exact ⟨_, aget_aset_same l _ _⟩
  · exact PStr_aset_ne he h

theorem PStr_fixNum_ne (l : Alist) (k k' : String) (hne : k ≠ k')
    (h : PStr k l) : PStr k (fixNum l k') := PStr_aset_ne hne h

theorem fixNum_aget_ne (l : Alist) (k k' : String) (hne : k ≠ k') :
    aget (fixNum l k') k = aget l k := aget_aset_ne l k' k _ hne

theorem fixName_aget_ne (l : Alist) (k m : String) (hne : k ≠ nameKeyOf m) :
    aget (fixName l m) k = aget l k := aget_aset_ne l _ k _ hne

theorem foldl_fixNum_aget_ne (m k : String) :
    ∀ (ks : List String) (acc : Alist), (∀ mk ∈ ks, k ≠ numKeyOf m mk) →
      aget (ks.foldl (fun a mk => fixNum a (numKeyOf m mk)) acc) k = aget acc k := by
  intro ks
  induction ks with
  | nil => intro acc _; rfl
  | cons mk t ih =>
    intro acc h
    rw [List.foldl_cons, ih _ (fun y hy => h y (List.mem_cons_of_mem mk hy)),
      fixNum_aget_ne _ _ _ (h mk (List.mem_cons_self mk t))]

theorem fixMeal_aget_ne (a : Alist) (m k : String) (hname : k ≠ nameKeyOf m)
    (hnums : ∀ mk ∈ mealNumTags, k ≠ numKeyOf m mk) :
    aget (fixMeal a m) k = aget a k := by
  unfold fixMeal
  rw [foldl_fixNum_aget_ne m k mealNumTags _ hnums, fixName_aget_ne a k m hname]

/-! ### Concrete key-disjointness facts -/

theorem dfact_name_RF : ∀ m ∈ mealTags, nameKeyOf m ∈ REQUIRED_FIELDS := by decide

theorem dfact_num_RF : ∀ m ∈ mealTags, ∀ mk ∈ mealNumTags,
    numKeyOf m mk ∈ REQUIRED_FIELDS := by decide

theorem dfact_tot_RF : ∀ k ∈ totalKeys, k ∈ REQUIRED_FIELDS := by decide

theorem dfact_note_RF : "Note" ∈ REQUIRED_FIELDS := by decide

theorem dnote_name : ∀ m ∈ mealTags, ("Note" : String) ≠ nameKeyOf m := by decide

theorem dnote_num : ∀ m ∈ mealTags, ∀ mk ∈ mealNumTags,
    ("Note" : String) ≠ numKeyOf m mk := by decide

theorem dnote_tot : ∀ k ∈ totalKeys, ("Note" : String) ≠ k := by decide

theorem dname_num : ∀ m ∈ mealTags, ∀ m' ∈ mealTags, ∀ mk ∈ mealNumTags,
    nameKeyOf m ≠ numKeyOf m' mk := by decide

theorem dname_tot : ∀ m ∈ mealTags, ∀ k ∈ totalKeys, nameKeyOf m ≠ k := by decide

theorem dnum_tot : ∀ m ∈ mealTags, ∀ mk ∈ mealNumTags, ∀ k ∈ totalKeys,
    numKeyOf m mk ≠ k := by decide

/-! ### Establishment of the typed-field facts for `normalize_to_schema` -/

theorem isStrV_true {v : Option PyVal} (h : isStrV v = true) :
    ∃ s, v = some (.vstr s) := by
  match v with
  | some (.vstr s) => exact ⟨s, rfl⟩
  | some .vnone => simp [isStrV] at h
  | some (.vnum q) => simp [isStrV] at h
  | some (.vbool b) => simp [isStrV] at h
  | some (.vother n t) => simp [isStrV] at h
  | none => simp [isStrV] at h

theorem PStr_name_fixMeal_self (a : Alist) (m : String) (hm : m ∈ mealTags) :
    PStr (nameKeyOf m) (fixMeal a m) := by
  unfold fixMeal
  exact foldl_pres _ (PStr (nameKeyOf m)) mealNumTags _
    (fun a' mk hmk hP => PStr_fixNum_ne a' _ _ (dname_num m hm m hm mk hmk) hP)
    ⟨_, aget_aset_same a _ _⟩

theorem PNum_fixMeal_self (a : Alist) (m mk : String) (hmk : mk ∈ mealNumTags) :
    PNum (numKeyOf m mk) (fixMeal a m) := by
  unfold fixMeal
  exact foldl_estab _ (PNum (numKeyOf m mk)) mealNumTags _ mk hmk
    (fun a' => PNum_fixNum_self a' _)
    (fun a' mk' _ hP => PNum_fixNum a' _ _ hP)

theorem fillKey_aget_of_some {a : Alist} {k : String} {v : PyVal} (k' : String)
    (h : aget a k = some v) : aget (fillKey a k') k = some v := by
  unfold fillKey
  by_cases hn : aget a k' = none
  · rw [if_pos hn, aget_aset_ne _ _ _ _ (by
      intro he
      subst he
      rw [h] at hn
      exact Option.some_ne_none v hn)]
    exact h
  · rw [if_neg hn]
    exact h

theorem foldl_fillKey_some {k : String} {v : PyVal} :
    ∀ (ks : List String) (a : Alist), aget a k = some v →
      aget (ks.foldl fillKey a) k = some v := by
  intro ks
  induction ks with
  | nil => intro a h; exact h
  | cons k' t ih =>
    intro a h
    rw [List.foldl_cons]
    exact ih _ (fillKey_aget_of_some k' h)

theorem PStr_note_norm (p : Alist) : PStr "Note" (normalizeToSchema p) := by
  have h1 : PStr "Note" (nstage1 p) := by
    unfold nstage1
    by_cases h : isStrV (aget (nstage0 p) "Note") = true
    · rw [if_pos h]
      obtain ⟨s, hs⟩ := isStrV_true h
      exact ⟨s, hs⟩
    · rw [if_neg h]
      exact ⟨"", aget_aset_same _ _ _⟩
  have h2 : PStr "Note" (nstage2 p) := by
    unfold nstage2
    refine foldl_pres fixMeal (PStr "Note") mealTags _ ?_ h1
    intro a m hm hP
    obtain ⟨s, hs⟩ := hP
    exact ⟨s, by
      rw [fixMeal_aget_ne a m "Note" (dnote_name m hm) (fun mk hmk => dnote_num m hm mk hmk)]
      exact hs⟩
  have h3 : PStr "Note" (nstage3 p) := by
    unfold nstage3
    refine foldl_pres fixNum (PStr "Note") totalKeys _ ?_ h2
    intro a k hk hP
    exact PStr_fixNum_ne a _ k (dnote_tot k hk) hP
  obtain ⟨s, hs⟩ := h3
  exact ⟨s, foldl_fillKey_some REQUIRED_FIELDS _ hs⟩

theorem PStr_name_norm (p : Alist) (m : String) (hm : m ∈ mealTags) :
    PStr (nameKeyOf m) (normalizeToSchema p) := by
  have h2 : PStr (nameKeyOf m) (nstage2 p) := by
    unfold nstage2
    refine foldl_estab fixMeal (PStr (nameKeyOf m)) mealTags _ m hm
      (fun a => PStr_name_fixMeal_self a m hm) ?_
    intro a m' hm' hP
    unfold fixMeal
    exact foldl_pres _ (PStr (nameKeyOf m)) mealNumTags _
      (fun a' mk hmk hP' => PStr_fixNum_ne a' _ _ (dname_num m hm m' hm' mk hmk) hP')
      (PStr_fixName a _ m' hP)
  have h3 : PStr (nameKeyOf m) (nstage3 p) := by
    unfold nstage3
    refine foldl_pres fixNum (PStr (nameKeyOf m)) totalKeys _ ?_ h2
    intro a k hk hP
    exact PStr_fixNum_ne a _ k (dname_tot m hm k hk) hP
  obtain ⟨s, hs⟩ := h3
  exact ⟨s, foldl_fillKey_some REQUIRED_FIELDS _ hs⟩

theorem PNum_num_norm (p : Alist) (m : String) (hm : m ∈ mealTags)
    (mk : String) (hmk : mk ∈ mealNumTags) :
    PNum (numKeyOf m mk) (normalizeToSchema p) := by
  have h2 : PNum (numKeyOf m mk) (nstage2 p) := by
    unfold nstage2
    refine foldl_estab fixMeal (PNum (numKeyOf m mk)) mealTags _ m hm
      (fun a => PNum_fixMeal_self a m mk hmk) ?_
    intro a m' hm' hP
    unfold fixMeal
    exact foldl_pres _ (PNum (numKeyOf m mk)) mealNumTags _
      (fun a' mk' _ hP' => PNum_fixNum a' _ _ hP')
      (PNum_aset_ne (Ne.symm (dname_num m' hm' m hm mk hmk)) hP)
  have h3 : PNum (numKeyOf m mk) (nstage3 p) := by
    unfold nstage3
    refine foldl_pres fixNum (PNum (numKeyOf m mk)) totalKeys _ ?_ h2
    intro a k hk hP
    exact PNum_fixNum a _ k hP
  obtain ⟨q, hq⟩ := h3
  exact ⟨q, foldl_fillKey_some REQUIRED_FIELDS _ hq⟩

theorem PNum_tot_norm (p : Alist) (k : String) (hk : k ∈ totalKeys) :
    PNum k (normalizeToSchema p) := by
  have h3 : PNum k (nstage3 p) := by
    unfold nstage3
    exact foldl_estab fixNum (PNum k) totalKeys _ k hk
      (fun a => PNum_fixNum_self a k)
      (fun a k' _ hP => PNum_fixNum a _ _ hP)
  obtain ⟨q, hq⟩ := h3
  exact ⟨q, foldl_fillKey_some REQUIRED_FIELDS _ hq⟩

theorem mem_RF_cases (k : String) (h : k ∈ REQUIRED_FIELDS) :
    k = "Note" ∨ k ∈ totalKeys ∨
      (∃ m ∈ mealTags, k = nameKeyOf m) ∨
      (∃ m ∈ mealTags, ∃ mk ∈ mealNumTags, k = numKeyOf m mk) := by
  unfold REQUIRED_FIELDS at h
  rcases List.mem_cons.mp h with h0 | h1
  · exact Or.inl h0
  · rcases List.mem_append.mp h1 with h2 | h3
    · exact Or.inr (Or.inl h2)
    · obtain ⟨m, hm, hk⟩ := List.mem_flatMap.mp h3
      rcases List.mem_cons.mp hk with h4 | h5
      · exact Or.inr (Or.inr (Or.inl ⟨m, hm, h4⟩))
      · obtain ⟨mk, hmk, he⟩ := List.mem_map.mp h5
        exact Or.inr (Or.inr (Or.inr ⟨m, hm, mk, hmk, he.symm⟩))

theorem present_norm (p : Alist) (k : String) (h : k ∈ REQUIRED_FIELDS) :
    ∃ v, aget (normalizeToSchema p) k = some v := by
  rcases mem_RF_cases k h with rfl | hk | ⟨m, hm, rfl⟩ | ⟨m, hm, mk, hmk, rfl⟩
  · obtain ⟨s, hs⟩ := PStr_note_norm p
    exact ⟨_, hs⟩
  · obtain ⟨q, hq⟩ := PNum_tot_norm p k hk
    exact ⟨_, hq⟩
  · obtain ⟨s, hs⟩ := PStr_name_norm p m hm
    exact ⟨_, hs⟩
  · obtain ⟨q, hq⟩ := PNum_num_norm p m hm mk hmk
    exact ⟨_, hq⟩

/-! ### Key discipline (no duplicate keys, canonical-stable keys) -/

theorem NS_aset {l : Alist} {k : String} {v : PyVal}
    (h : NodupK l ∧ StableK l) (hk : canonKey k = k) :
    NodupK (aset l k v) ∧ StableK (aset l k v) :=
  ⟨nodup_keysOf_aset l k v h.1, stableK_aset h.2 hk⟩

theorem NS_nstage0 (p : Alist) : NodupK (nstage0 p) ∧ StableK (nstage0 p) := by
  unfold nstage0
  refine foldl_pres _ (fun l => NodupK l ∧ StableK l) p [] ?_ ?_
  · intro a q _ h
    exact NS_aset h (canonKey_stable q.1)
  · exact ⟨List.nodup_nil, by intro j hj; simp [keysOf] at hj⟩

theorem NS_norm (p : Alist) :
    NodupK (normalizeToSchema p) ∧ StableK (normalizeToSchema p) := by
  have h1 : NodupK (nstage1 p) ∧ StableK (nstage1 p) := by
    unfold nstage1
    by_cases h : isStrV (aget (nstage0 p) "Note") = true
    · rw [if_pos h]; exact NS_nstage0 p
    · rw [if_neg h]
      exact NS_aset (NS_nstage0 p) (required_canon _ dfact_note_RF)
  have h2 : NodupK (nstage2 p) ∧ StableK (nstage2 p) := by
    unfold nstage2
    refine foldl_pres fixMeal (fun l => NodupK l ∧ StableK l) mealTags _ ?_ h1
    intro a m hm h
    unfold fixMeal
    refine foldl_pres _ (fun l => NodupK l ∧ StableK l) mealNumTags _ ?_ ?_
    · intro a' mk hmk h'
      exact NS_aset h' (required_canon _ (dfact_num_RF m hm mk hmk))
    · exact NS_aset h (required_canon _ (dfact_name_RF m hm))
  have h3 : NodupK (nstage3 p) ∧ StableK (nstage3 p) := by
    unfold nstage3
    refine foldl_pres fixNum (fun l => NodupK l ∧ StableK l) totalKeys _ ?_ h2
    intro a k hk h
    exact NS_aset h (required_canon _ (dfact_tot_RF k hk))
  unfold normalizeToSchema
  refine foldl_pres fillKey (fun l => NodupK l ∧ StableK l) REQUIRED_FIELDS _ ?_ h3
  intro a k hk h
  unfold fillKey
  by_cases hn : aget a k = none
  · rw [if_pos hn]
    exact NS_aset h (required_canon _ hk)
  · rw [if_neg hn]
    exact h

/-! ### The canonicalizing rebuild fixes an already-normalized dict -/

theorem rebuild_aux :
    ∀ (l acc : Alist), (keysOf (acc ++ l)).Nodup →
      (∀ j ∈ keysOf l, canonKey j = j) →
      List.foldl (fun a q => aset a (canonKey q.1) q.2) acc l = acc ++ l := by
  intro l
  induction l with
  | nil => intro acc _ _; simp
  | cons q t ih =>
    intro acc hnd hst
    rw [List.foldl_cons]
    have hq : canonKey q.1 = q.1 := hst q.1 (by simp [keysOf])
    have hka : keysOf (acc ++ q :: t) = keysOf acc ++ keysOf (q :: t) := by
      unfold keysOf
      rw [List.map_append]
    have hnotmem : q.1 ∉ keysOf acc := by
      rw [hka] at hnd
      have hdisj := (List.nodup_append.mp hnd).2.2
      intro hmem
      exact hdisj hmem (by simp [keysOf])
    rw [hq, aset_append_of_not_mem acc q.1 q.2 hnotmem]
    have hrearr : (acc ++ [(q.1, q.2)]) ++ t = acc ++ q :: t := by
      simp
    have hnd' : (keysOf ((acc ++ [(q.1, q.2)]) ++ t)).Nodup := by
      rw [hrearr]
      exact hnd
    have := ih (acc ++ [(q.1, q.2)]) hnd'
      (fun j hj => hst j (by simp [keysOf] at hj ⊢; exact Or.inr hj))
    rw [this, hrearr]

theorem nstage0_norm (p : Alist) :
    nstage0 (normalizeToSchema p) = normalizeToSchema p := by
  obtain ⟨hnd, hst⟩ := NS_norm p
  unfold nstage0
  have := rebuild_aux (normalizeToSchema p) [] (by simpa using hnd) hst
  simpa using this

/-- Idempotence of `normalize_to_schema`: a second pass returns the same
dict (even the same association list, order included). -/
theorem normalizeToSchema_idem (p : Alist) :
    normalizeToSchema (normalizeToSchema p) = normalizeToSchema p := by
  have hnd : NodupK (normalizeToSchema p) := (NS_norm p).1
  have hstage1 : nstage1 (normalizeToSchema p) = normalizeToSchema p := by
    unfold nstage1
    rw [nstage0_norm]
    obtain ⟨s, hs⟩ := PStr_note_norm p
    rw [if_pos (by rw [hs]; rfl)]
  have hstage2 : nstage2 (normalizeToSchema p) = normalizeToSchema p := by
    unfold nstage2
    rw [hstage1]
    apply foldl_id
    intro m hm
    unfold fixMeal
    have hfixName : fixName (normalizeToSchema p) m = normalizeToSchema p := by
      obtain ⟨s, hs⟩ := PStr_name_norm p m hm
      unfold fixName
      rw [hs]
      exact aset_self _ _ _ hnd hs
    rw [hfixName]
    apply foldl_id
    intro mk hmk
    obtain ⟨q, hq⟩ := PNum_num_norm p m hm mk hmk
    unfold fixNum
    rw [hq]
    exact aset_self _ _ _ hnd hq
  have hstage3 : nstage3 (normalizeToSchema p) = normalizeToSchema p := by
    unfold nstage3
    rw [hstage2]
    apply foldl_id
    intro k hk
    obtain ⟨q, hq⟩ := PNum_tot_norm p k hk
    unfold fixNum
    rw [hq]
    exact aset_self _ _ _ hnd hq
  show REQUIRED_FIELDS.foldl fillKey (nstage3 (normalizeToSchema p))
      = normalizeToSchema p
  rw [hstage3]
  apply foldl_id
  intro k hk
  obtain ⟨v, hv⟩ := present_norm p k hk
  unfold fillKey
  rw [if_neg (by rw [hv]; exact Option.some_ne_none v)]

/-! ## Seeded randomness, abstracted

  `random.Random(seed)` is consumed through `rnd.random()`, `rnd.uniform`,
  `rnd.randrange`/`rnd.randint` and choices.  Here a generator is an explicit
  stream `u : ℕ → ℚ` of draws, one per call in the exact source order; a draw
  is a `random()` value in `[0, 1)`.  `uniform(a, b)` is `a + (b - a)·u` over
  exact rationals, and a bounded integer draw `randrange(0, n)` is
  `⌊n·u⌋` from a fresh draw — each call consumes one stream position and can
  reach every value of `[0, n)`, which is the only property used. -/

def RS : Type := ℕ → ℚ

/-- Draws all lie in `[0, 1)` — what `random()` guarantees. -/
def StreamOK (u : RS) : Prop := ∀ i, 0 ≤ u i ∧ u i < 1

/-- `rnd.uniform(a, b)` from one draw. -/
def uniformAt (a b u : ℚ) : ℚ := a + (b - a) * u

/-- A bounded integer draw in `[0, n)` from one draw. -/
def randBelow (n : ℕ) (u : ℚ) : ℕ := (⌊(n : ℚ) * u⌋).toNat

/-! ## `diversify_meals` (`experiments/exp2_acegpt_claude/utils_json_v12.py`) -/

/-- `_jitter(value, pct, rnd)`. -/
def jitterQ (value pct u : ℚ) : ℚ :=
  pyRound 1 (value * uniformAt (1 - pct) (1 + pct) u)

/-- Lower-case a string (ASCII, characterwise). -/
def lowerAscii (s : String) : String := String.mk (s.data.map Char.toLower)

/-- `(persona.get("Primary_goal") or "").lower()`: falsy values give `""`.
Python raises on a truthy non-string; such inputs are outside the model. -/
def goalStrOf (persona : Jmap) : String :=
  match persona "Primary_goal" with
  | some (.vstr s) => lowerAscii s
  | _ => ""

/-- `_goal_kcal`: both goal adjustments can apply, then clamp to [1600, 3600]. -/
def goalKcal (w : ℚ) (goal : String) : ℚ :=
  let base := 28 * w
  let base1 := if strContains goal "fat" then base - 250 else base
  let base2 := if strContains goal "muscle" then base1 + 150 else base1
  max 1600 (min 3600 base2)

/-- The six recomputed totals of `_re_totals_with_jitter`. -/
structure Totals where
  kcal : ℚ
  carbs : ℚ
  fat : ℚ
  protein : ℚ
  fiber : ℚ
  sodium : ℚ
deriving DecidableEq

/-- `_re_totals_with_jitter`, consuming draws 0–4 of the stream. -/
def reTotals (persona : Jmap) (u : RS) : Totals :=
  let w := pyFD 75 (getV persona "Weight_kg")
  let goal := goalStrOf persona
  let kcal := jitterQ (goalKcal w goal) (6/100) (u 0)
  let p :=
    if strContains goal "muscle" then jitterQ (min (max (19/10 * w) 110) 190) (6/100) (u 1)
    else if strContains goal "fat" then jitterQ (min (max (18/10 * w) 100) 180) (6/100) (u 1)
    else jitterQ (min (max (17/10 * w) 95) 175) (6/100) (u 1)
  let f :=
    if strContains goal "muscle" then jitterQ (kcal * (27/100) / 9) (8/100) (u 2)
    else if strContains goal "fat" then jitterQ (kcal * (30/100) / 9) (8/100) (u 2)
    else jitterQ (kcal * (28/100) / 9) (8/100) (u 2)
  let c := max 90 ((kcal - (p * 4 + f * 9)) / 4)
  let fiber := pyRound 1 (uniformAt 24 36 (u 3))
  let sodium := pyRound 0 (max 1500 (min 3200 (2000 + (w - 70) * 8 + uniformAt (-350) 350 (u 4))))
  { kcal := pyRound 1 kcal, carbs := pyRound 1 c, fat := pyRound 1 f,
    protein := pyRound 1 p, fiber := fiber, sodium := sodium }

/-- `_dirichlet4(rnd)`: four draws shifted by 0.3 and normalized. -/
def dirichlet4 (u : RS) (i : ℕ) : List ℚ :=
  let xs := [u i + 3/10, u (i + 1) + 3/10, u (i + 2) + 3/10, u (i + 3) + 3/10]
  xs.map (· / xs.sum)

/-- `_split(total, rnd)`: four one-decimal shares, and the next stream index
(a non-positive total consumes no draws). -/
def splitQ (total : ℚ) (u : RS) (i : ℕ) : List ℚ × ℕ :=
  if total ≤ 0 then ([0, 0, 0, 0], i)
  else ((dirichlet4 u i).map (fun w => pyRound 1 (total * w)), i + 4)

/-- Batch update of a `Jmap` (each key written once). -/
def setKeys (obj : Jmap) (kvs : List (String × PyVal)) : Jmap := fun k =>
  match kvs.find? (fun p => p.1 == k) with
  | some p => some p.2
  | none => obj k

/-- The seven writes of one meal slot. -/
def mealAssign (tag : String) (idx offset : ℕ)
    (skcal scarb sfat sprot sfib ssod : List ℚ) : List (String × PyVal) :=
  [(nameKeyOf tag, .vstr (SAUDI_MEAL_NAMES.getD (offset + idx) "")),
   (numKeyOf tag "kcal_target_kcal", .vnum (skcal.getD idx 0)),
   (numKeyOf tag "carbs_g", .vnum (scarb.getD idx 0)),
   (numKeyOf tag "fat_g", .vnum (sfat.getD idx 0)),
   (numKeyOf tag "protein_g", .vnum (sprot.getD idx 0)),
   (numKeyOf tag "fiber_g", .vnum (sfib.getD idx 0)),
   (numKeyOf tag "sodium_mg", .vnum (ssod.getD idx 0))]

/-- One body pass of `diversify_meals` (steps 1–3): recomputed totals, the
rotated name window at a random offset in `[0, 9)`, and the six Dirichlet
splits, written over the input dict.  Draw order matches the source:
5 for totals, 1 for the offset, then 4 per split in the order
kcal/carbs/fat/protein/fiber/sodium. -/
def diversifyOnce (obj persona : Jmap) (u : RS) : Jmap :=
  let t := reTotals persona u
  let offset := randBelow (SAUDI_MEAL_NAMES.length - 4) (u 5)
  let s1 := splitQ t.kcal u 6
  let s2 := splitQ t.carbs u s1.2
  let s3 := splitQ t.fat u s2.2
  let s4 := splitQ t.protein u s3.2
  let s5 := splitQ t.fiber u s4.2
  let s6 := splitQ t.sodium u s5.2
  setKeys obj
    ([("Total_kcal_target_kcal", .vnum t.kcal), ("Total_carbs_g", .vnum t.carbs),
      ("Total_fat_g", .vnum t.fat), ("Total_protein_g", .vnum t.protein),
      ("Total_fiber_g", .vnum t.fiber), ("Total_sodium_mg", .vnum t.sodium)]
     ++ mealAssign "1st" 0 offset s1.1 s2.1 s3.1 s4.1 s5.1 s6.1
     ++ mealAssign "2nd" 1 offset s1.1 s2.1 s3.1 s4.1 s5.1 s6.1
     ++ mealAssign "3rd" 2 offset s1.1 s2.1 s3.1 s4.1 s5.1 s6.1
     ++ mealAssign "4th" 3 offset s1.1 s2.1 s3.1 s4.1 s5.1 s6.1)

/-- `str(obj.get(k, ""))` as used for meal-name comparisons. -/
def nameStrD (x : Jmap) (k : String) : String := pyStr ((x k).getD (.vstr ""))

/-- `_all_meals_identical`: every macro of meals 2–4 within `1e-6` of meal 1
and all four names equal.  (The source indexes the macro keys directly and
would raise on a dict without them; missing keys are read as 0 here.) -/
def allMealsIdentical (d : Jmap) : Bool :=
  (mealTags.tail.all (fun m => mealNumTags.all (fun k =>
      decide (|pyFD 0 (getV d (numKeyOf m k)) - pyFD 0 (getV d (numKeyOf "1st" k))|
        ≤ 1/1000000))))
  && (mealTags.tail.all (fun m =>
      nameStrD d (nameKeyOf m) == nameStrD d (nameKeyOf "1st")))

/-- `_similar_overview`: same four meal names, or all six totals within
`1e-6`.  `none` stands for a falsy `last_week_obj` (`None` or an empty dict). -/
def similarOverview (a : Jmap) (b : Option Jmap) : Bool :=
  match b with
  | none => false
  | some b' =>
    let sameNames := mealTags.all (fun m =>
      nameStrD a (nameKeyOf m) == nameStrD b' (nameKeyOf m))
    let closeTotals := totalKeys.all (fun k =>
      decide (|pyFD 0 (getV a k) - pyFD 0 (getV b' k)| ≤ 1/1000000))
    sameNames || closeTotals

/-- The recursion guard of step 4. -/
def badDiet (d : Jmap) (last : Option Jmap) : Bool :=
  allMealsIdentical d || similarOverview d last

/-- `diversify_meals` with an explicit fuel bound (the source enforces no
recursion bound; `none` means no pass within `fuel` produced an acceptable
result).  `U nonce` is the stream the seed `pid|week_id|diet|nonce` derives. -/
def diversifyF : ℕ → (ℕ → RS) → Jmap → Jmap → Option Jmap → ℕ → Option Jmap
  | 0, _, _, _, _, _ => none
  | fuel + 1, U, obj, persona, last, nonce =>
    let d := diversifyOnce obj persona (U nonce)
    if badDiet d last then diversifyF fuel U d persona last (nonce + 1)
    else some d

/-- The explicit denominator of one Dirichlet draw block. -/
def dsum4 (u : RS) (i : ℕ) : ℚ :=
  (u i + 3/10) + ((u (i + 1) + 3/10) + ((u (i + 2) + 3/10) + ((u (i + 3) + 3/10) + 0)))

theorem splitQ_pos_parts (T : ℚ) (u : RS) (i : ℕ) (hT : 0 < T) :
    (splitQ T u i).1 =
      [pyRound 1 (T * ((u i + 3/10) / dsum4 u i)),
       pyRound 1 (T * ((u (i + 1) + 3/10) / dsum4 u i)),
       pyRound 1 (T * ((u (i + 2) + 3/10) / dsum4 u i)),
       pyRound 1 (T * ((u (i + 3) + 3/10) / dsum4 u i))] := by
  rw [splitQ, if_neg (not_le.mpr hT)]
  rfl

theorem splitQ_getD_sum (T : ℚ) (u : RS) (i : ℕ) (hT : 0 < T) (hu : StreamOK u) :
    |T - ((splitQ T u i).1.getD 0 0 + (splitQ T u i).1.getD 1 0 +
          (splitQ T u i).1.getD 2 0 + (splitQ T u i).1.getD 3 0)| ≤ 1/5 := by
  rw [splitQ_pos_parts T u i hT]
  simp only [List.getD_cons_zero, List.getD_cons_succ]
  have hD : 0 < dsum4 u i := by
    have h0 := (hu i).1
    have h1 := (hu (i + 1)).1
    have h2 := (hu (i + 2)).1
    have h3 := (hu (i + 3)).1
    unfold dsum4
    linarith
  have e0 := abs_sub_pyRound 1 (T * ((u i + 3/10) / dsum4 u i))
  have e1 := abs_sub_pyRound 1 (T * ((u (i + 1) + 3/10) / dsum4 u i))
  have e2 := abs_sub_pyRound 1 (T * ((u (i + 2) + 3/10) / dsum4 u i))
  have e3 := abs_sub_pyRound 1 (T * ((u (i + 3) + 3/10) / dsum4 u i))
  have hsum : T * ((u i + 3/10) / dsum4 u i) + T * ((u (i + 1) + 3/10) / dsum4 u i)
      + T * ((u (i + 2) + 3/10) / dsum4 u i) + T * ((u (i + 3) + 3/10) / dsum4 u i)
      = T := by
    have hne : dsum4 u i ≠ 0 := ne_of_gt hD
    field_simp
    unfold dsum4
    ring
  rw [abs_le] at e0 e1 e2 e3 ⊢
  norm_num at e0 e1 e2 e3
  constructor <;> linarith

theorem randBelow_lt (n : ℕ) (u : ℚ) (hn : 0 < n) (h0 : 0 ≤ u) (h1 : u < 1) :
    randBelow n u < n := by
  unfold randBelow
  have hfl : ⌊(n : ℚ) * u⌋ < (n : ℤ) := by
    apply Int.floor_lt.mpr
    push_cast
    nlinarith [mul_pos (show (0 : ℚ) < n by exact_mod_cast hn)
      (show (0 : ℚ) < 1 - u by linarith)]
  have hnn : 0 ≤ ⌊(n : ℚ) * u⌋ := Int.floor_nonneg.mpr (by positivity)
  omega

theorem jitterQ_lb (v pct u lo : ℚ) (hv : lo ≤ v) (hlo : 0 ≤ lo) (hpct : 0 ≤ pct)
    (hpct1 : pct ≤ 1) (hu0 : 0 ≤ u) : lo * (1 - pct) - 1/20 ≤ jitterQ v pct u := by
  unfold jitterQ uniformAt
  have h1 : (1 - pct) ≤ 1 - pct + (1 + pct - (1 - pct)) * u := by nlinarith
  have h2 : lo * (1 - pct) ≤ v * (1 - pct + (1 + pct - (1 - pct)) * u) :=
    mul_le_mul hv h1 (by linarith) (by linarith)
  have h3 := pyRound_ge 1 (v * (1 - pct + (1 + pct - (1 - pct)) * u))
  have h4 : (1 : ℚ) / (2 * 10 ^ 1) = 1/20 := by norm_num
  linarith

theorem goalKcal_bounds (w : ℚ) (goal : String) :
    1600 ≤ goalKcal w goal ∧ goalKcal w goal ≤ 3600 := by
  unfold goalKcal
  refine ⟨le_max_left _ _, max_le (by norm_num) (min_le_left _ _)⟩

theorem pyRound1_pos_of_ge (x c : ℚ) (hc : 1/20 < c) (hx : c ≤ x) :
    0 < pyRound 1 x := by
  have h := pyRound_ge 1 x
  have h4 : (1 : ℚ) / (2 * 10 ^ 1) = 1/20 := by norm_num
  linarith

theorem pyRound0_pos_of_ge (x c : ℚ) (hc : 1/2 < c) (hx : c ≤ x) :
    0 < pyRound 0 x := by
  have h := pyRound_ge 0 x
  have h4 : (1 : ℚ) / (2 * 10 ^ 0) = 1/2 := by norm_num
  linarith

theorem reTotals_pos (p : Jmap) (u : RS) (hu : StreamOK u) :
    0 < (reTotals p u).kcal ∧ 0 < (reTotals p u).carbs ∧ 0 < (reTotals p u).fat ∧
    0 < (reTotals p u).protein ∧ 0 < (reTotals p u).fiber ∧ 0 < (reTotals p u).sodium := by
  obtain ⟨h00, h01⟩ := hu 0
  obtain ⟨h10, h11⟩ := hu 1
  obtain ⟨h20, h21⟩ := hu 2
  obtain ⟨h30, h31⟩ := hu 3
  obtain ⟨h40, h41⟩ := hu 4
  set w0 := pyFD 75 (getV p "Weight_kg") with hw0
  set g0 := goalStrOf p with hg0
  have hK := goalKcal_bounds w0 g0
  set J := jitterQ (goalKcal w0 g0) (6/100) (u 0) with hJdef
  have hkj : (1503 : ℚ) ≤ J := by
    have := jitterQ_lb (goalKcal w0 g0) (6/100) (u 0) 1600 hK.1
      (by norm_num) (by norm_num) (by norm_num) h00
    rw [hJdef]
    linarith
  set Pr := (if strContains g0 "muscle" then jitterQ (min (max (19/10 * w0) 110) 190) (6/100) (u 1)
      else if strContains g0 "fat" then jitterQ (min (max (18/10 * w0) 100) 180) (6/100) (u 1)
      else jitterQ (min (max (17/10 * w0) 95) 175) (6/100) (u 1)) with hPr
  set F := (if strContains g0 "muscle" then jitterQ (J * (27/100) / 9) (8/100) (u 2)
      else if strContains g0 "fat" then jitterQ (J * (30/100) / 9) (8/100) (u 2)
      else jitterQ (J * (28/100) / 9) (8/100) (u 2)) with hF
  refine ⟨?_, ?_, ?_, ?_, ?_, ?_⟩
  · show 0 < pyRound 1 J
    exact pyRound1_pos_of_ge _ 1503 (by norm_num) hkj
  · show 0 < pyRound 1 (max 90 ((J - (Pr * 4 + F * 9)) / 4))
    exact pyRound1_pos_of_ge _ 90 (by norm_num) (le_max_left _ _)
  · show 0 < pyRound 1 F
    rw [hF]
    by_cases hm : strContains g0 "muscle"
    · rw [if_pos hm]
      refine pyRound1_pos_of_ge _ 40 (by norm_num) ?_
      have hinner : (45 : ℚ) ≤ J * (27/100) / 9 := by nlinarith
      have := jitterQ_lb (J * (27/100) / 9) (8/100) (u 2) 45 hinner (by norm_num)
        (by norm_num) (by norm_num) h20
      linarith
    · rw [if_neg hm]
      by_cases hf : strContains g0 "fat"
      · rw [if_pos hf]
        refine pyRound1_pos_of_ge _ 40 (by norm_num) ?_
        have hinner : (45 : ℚ) ≤ J * (30/100) / 9 := by nlinarith
        have := jitterQ_lb (J * (30/100) / 9) (8/100) (u 2) 45 hinner (by norm_num)
          (by norm_num) (by norm_num) h20
        linarith
      · rw [if_neg hf]
        refine pyRound1_pos_of_ge _ 40 (by norm_num) ?_
        have hinner : (45 : ℚ) ≤ J * (28/100) / 9 := by nlinarith
        have := jitterQ_lb (J * (28/100) / 9) (8/100) (u 2) 45 hinner (by norm_num)
          (by norm_num) (by norm_num) h20
        linarith
  · show 0 < pyRound 1 Pr
    rw [hPr]
    by_cases hm : strContains g0 "muscle"
    · rw [if_pos hm]
      refine pyRound1_pos_of_ge _ 89 (by norm_num) ?_
      have hbase : (110 : ℚ) ≤ min (max (19/10 * w0) 110) 190 :=
        le_min (le_max_right _ _) (by norm_num)
      have := jitterQ_lb (min (max (19/10 * w0) 110) 190) (6/100) (u 1) 110 hbase
        (by norm_num) (by norm_num) (by norm_num) h10
      linarith
    · rw [if_neg hm]
      by_cases hf : strContains g0 "fat"
      · rw [if_pos hf]
        refine pyRound1_pos_of_ge _ 89 (by norm_num) ?_
        have hbase : (100 : ℚ) ≤ min (max (18/10 * w0) 100) 180 :=
          le_min (le_max_right _ _) (by norm_num)
        have := jitterQ_lb (min (max (18/10 * w0) 100) 180) (6/100) (u 1) 100 hbase
          (by norm_num) (by norm_num) (by norm_num) h10
        linarith
      · rw [if_neg hf]
        refine pyRound1_pos_of_ge _ 89 (by norm_num) ?_
        have hbase : (95 : ℚ) ≤ min (max (17/10 * w0) 95) 175 :=
          le_min (le_max_right _ _) (by norm_num)
        have := jitterQ_lb (min (max (17/10 * w0) 95) 175) (6/100) (u 1) 95 hbase
          (by norm_num) (by norm_num) (by norm_num) h10
        linarith
  · show 0 < pyRound 1 (uniformAt 24 36 (u 3))
    refine pyRound1_pos_of_ge _ 24 (by norm_num) ?_
    unfold uniformAt
    nlinarith
  · show 0 < pyRound 0 (max 1500 (min 3200 (2000 + (w0 - 70) * 8 + uniformAt (-350) 350 (u 4))))
    exact pyRound0_pos_of_ge _ 1500 (by norm_num) (le_max_left _ _)

theorem diversifyF_not_bad :
    ∀ (fuel : ℕ) (U : ℕ → RS) (obj persona : Jmap) (last : Option Jmap)
      (nonce : ℕ) (d : Jmap), diversifyF fuel U obj persona last nonce = some d →
      badDiet d last = false := by
  intro fuel
  induction fuel with
  | zero =>
    intro U obj p last nonce d h
    simp [diversifyF] at h
  | succ n ih =>
    intro U obj p last nonce d h
    rw [diversifyF] at h
    by_cases hb : badDiet (diversifyOnce obj p (U nonce)) last
    · rw [if_pos hb] at h
      exact ih U _ p last _ d h
    · rw [if_neg hb] at h
      injection h with he
      rw [← he]
      exact Bool.not_eq_true _ ▸ eq_false_of_ne_true hb

theorem diversifyF_recurse (fuel : ℕ) (U : ℕ → RS) (obj persona : Jmap)
    (last : Option Jmap) (nonce : ℕ)
    (hb : badDiet (diversifyOnce obj persona (U nonce)) last = true) :
    diversifyF (fuel + 1) U obj persona last nonce
      = diversifyF fuel U (diversifyOnce obj persona (U nonce)) persona last (nonce + 1) := by
  rw [diversifyF, if_pos hb]

theorem diversifyOnce_totals_close (obj p : Jmap) (u : RS) (hu : StreamOK u) :
    ∀ tp ∈ totalPairs,
      |pyFD 0 (getV (diversifyOnce obj p u) tp.1)
        - mealSum (diversifyOnce obj p u) tp.2| ≤ 1/5 := by
  obtain ⟨hk, hc, hf, hp2, hfib, hsod⟩ := reTotals_pos p u hu
  have hflat : ∀ a b c d : ℚ, a + (b + (c + (d + 0))) = a + b + c + d := by
    intro a b c d
    ring
  intro tp htp
  fin_cases htp
  · have e1 : pyFD 0 (getV (diversifyOnce obj p u) "Total_kcal_target_kcal")
        = (reTotals p u).kcal := rfl
    have e2 : mealSum (diversifyOnce obj p u) "kcal_target_kcal"
        = (splitQ (reTotals p u).kcal u 6).1.getD 0 0
          + ((splitQ (reTotals p u).kcal u 6).1.getD 1 0
          + ((splitQ (reTotals p u).kcal u 6).1.getD 2 0
          + ((splitQ (reTotals p u).kcal u 6).1.getD 3 0 + 0))) := rfl
    rw [e1, e2, hflat]
    exact splitQ_getD_sum (reTotals p u).kcal u 6 hk hu
  · have e1 : pyFD 0 (getV (diversifyOnce obj p u) "Total_carbs_g")
        = (reTotals p u).carbs := rfl
    have e2 : mealSum (diversifyOnce obj p u) "carbs_g"
        = (splitQ (reTotals p u).carbs u (splitQ (reTotals p u).kcal u 6).2).1.getD 0 0
          + ((splitQ (reTotals p u).carbs u (splitQ (reTotals p u).kcal u 6).2).1.getD 1 0
          + ((splitQ (reTotals p u).carbs u (splitQ (reTotals p u).kcal u 6).2).1.getD 2 0
          + ((splitQ (reTotals p u).carbs u (splitQ (reTotals p u).kcal u 6).2).1.getD 3 0 + 0))) := rfl
    rw [e1, e2, hflat]
    exact splitQ_getD_sum (reTotals p u).carbs u _ hc hu
  · have e1 : pyFD 0 (getV (diversifyOnce obj p u) "Total_fat_g")
        = (reTotals p u).fat := rfl
    have e2 : mealSum (diversifyOnce obj p u) "fat_g"
        = (splitQ (reTotals p u).fat u (splitQ (reTotals p u).carbs u (splitQ (reTotals p u).kcal u 6).2).2).1.getD 0 0
          + ((splitQ (reTotals p u).fat u (splitQ (reTotals p u).carbs u (splitQ (reTotals p u).kcal u 6).2).2).1.getD 1 0
          + ((splitQ (reTotals p u).fat u (splitQ (reTotals p u).carbs u (splitQ (reTotals p u).kcal u 6).2).2).1.getD 2 0
          + ((splitQ (reTotals p u).fat u (splitQ (reTotals p u).carbs u (splitQ (reTotals p u).kcal u 6).2).2).1.getD 3 0 + 0))) := rfl
    rw [e1, e2, hflat]
    exact splitQ_getD_sum (reTotals p u).fat u _ hf hu
  · have e1 : pyFD 0 (getV (diversifyOnce obj p u) "Total_protein_g")
        = (reTotals p u).protein := rfl
    have e2 : mealSum (diversifyOnce obj p u) "protein_g"
        = (splitQ (reTotals p u).protein u (splitQ (reTotals p u).fat u (splitQ (reTotals p u).carbs u (splitQ (reTotals p u).kcal u 6).2).2).2).1.getD 0 0
          + ((splitQ (reTotals p u).protein u (splitQ (reTotals p u).fat u (splitQ (reTotals p u).carbs u (splitQ (reTotals p u).kcal u 6).2).2).2).1.getD 1 0
          + ((splitQ (reTotals p u).protein u (splitQ (reTotals p u).fat u (splitQ (reTotals p u).carbs u (splitQ (reTotals p u).kcal u 6).2).2).2).1.getD 2 0
          + ((splitQ (reTotals p u).protein u (splitQ (reTotals p u).fat u (splitQ (reTotals p u).carbs u (splitQ (reTotals p u).kcal u 6).2).2).2).1.getD 3 0 + 0))) := rfl
    rw [e1, e2, hflat]
    exact splitQ_getD_sum (reTotals p u).protein u _ hp2 hu
  · have e1 : pyFD 0 (getV (diversifyOnce obj p u) "Total_fiber_g")
        = (reTotals p u).fiber := rfl
    have e2 : mealSum (diversifyOnce obj p u) "fiber_g"
        = (splitQ (reTotals p u).fiber u (splitQ (reTotals p u).protein u (splitQ (reTotals p u).fat u (splitQ (reTotals p u).carbs u (splitQ (reTotals p u).kcal u 6).2).2).2).2).1.getD 0 0
          + ((splitQ (reTotals p u).fiber u (splitQ (reTotals p u).protein u (splitQ (reTotals p u).fat u (splitQ (reTotals p u).carbs u (splitQ (reTotals p u).kcal u 6).2).2).2).2).1.getD 1 0
          + ((splitQ (reTotals p u).fiber u (splitQ (reTotals p u).protein u (splitQ (reTotals p u).fat u (splitQ (reTotals p u).carbs u (splitQ (reTotals p u).kcal u 6).2).2).2).2).1.getD 2 0
          + ((splitQ (reTotals p u).fiber u (splitQ (reTotals p u).protein u (splitQ (reTotals p u).fat u (splitQ (reTotals p u).carbs u (splitQ (reTotals p u).kcal u 6).2).2).2).2).1.getD 3 0 + 0))) := rfl
    rw [e1, e2, hflat]
    exact splitQ_getD_sum (reTotals p u).fiber u _ hfib hu
  · have e1 : pyFD 0 (getV (diversifyOnce obj p u) "Total_sodium_mg")
        = (reTotals p u).sodium := rfl
    have e2 : mealSum (diversifyOnce obj p u) "sodium_mg"
        = (splitQ (reTotals p u).sodium u (splitQ (reTotals p u).fiber u (splitQ (reTotals p u).protein u (splitQ (reTotals p u).fat u (splitQ (reTotals p u).carbs u (splitQ (reTotals p u).kcal u 6).2).2).2).2).2).1.getD 0 0
          + ((splitQ (reTotals p u).sodium u (splitQ (reTotals p u).fiber u (splitQ (reTotals p u).protein u (splitQ (reTotals p u).fat u (splitQ (reTotals p u).carbs u (splitQ (reTotals p u).kcal u 6).2).2).2).2).2).1.getD 1 0
          + ((splitQ (reTotals p u).sodium u (splitQ (reTotals p u).fiber u (splitQ (reTotals p u).protein u (splitQ (reTotals p u).fat u (splitQ (reTotals p u).carbs u (splitQ (reTotals p u).kcal u 6).2).2).2).2).2).1.getD 2 0
          + ((splitQ (reTotals p u).sodium u (splitQ (reTotals p u).fiber u (splitQ (reTotals p u).protein u (splitQ (reTotals p u).fat u (splitQ (reTotals p u).carbs u (splitQ (reTotals p u).kcal u 6).2).2).2).2).2).1.getD 3 0 + 0))) := rfl
    rw [e1, e2, hflat]
    exact splitQ_getD_sum (reTotals p u).sodium u _ hsod hu

theorem diversifyOnce_names (obj p : Jmap) (u : RS) (hu : StreamOK u) :
    ∃ o : ℕ, o ≤ 8 ∧
      getV (diversifyOnce obj p u) "1st_meal" = .vstr (SAUDI_MEAL_NAMES.getD o "") ∧
      getV (diversifyOnce obj p u) "2nd_meal" = .vstr (SAUDI_MEAL_NAMES.getD (o + 1) "") ∧
      getV (diversifyOnce obj p u) "3rd_meal" = .vstr (SAUDI_MEAL_NAMES.getD (o + 2) "") ∧
      getV (diversifyOnce obj p u) "4th_meal" = .vstr (SAUDI_MEAL_NAMES.getD (o + 3) "") := by
  refine ⟨randBelow (SAUDI_MEAL_NAMES.length - 4) (u 5), ?_, rfl, rfl, rfl, rfl⟩
  have h9 : randBelow 9 (u 5) < 9 :=
    randBelow_lt 9 (u 5) (by norm_num) (hu 5).1 (hu 5).2
  have he : SAUDI_MEAL_NAMES.length - 4 = 9 := by decide
  rw [he]
  omega

theorem diversifyF_some_shape :
    ∀ (fuel : ℕ) (U : ℕ → RS) (obj persona : Jmap) (last : Option Jmap)
      (nonce : ℕ) (d : Jmap), diversifyF fuel U obj persona last nonce = some d →
      ∃ o n', d = diversifyOnce o persona (U n') := by
  intro fuel
  induction fuel with
  | zero =>
    intro U obj p last nonce d h
    simp [diversifyF] at h
  | succ n ih =>
    intro U obj p last nonce d h
    rw [diversifyF] at h
    by_cases hb : badDiet (diversifyOnce obj p (U nonce)) last
    · rw [if_pos hb] at h
      exact ih U _ p last _ d h
    · rw [if_neg hb] at h
      injection h with he
      exact ⟨obj, nonce, he.symm⟩

/-! ## Nutrition table and meal builder (`experiments/exp2_acegpt_claude/acegpt_client.py`)

  The per-100 g/ml table, the four slot composers and `_compose_meal`.
  `_ensure_unique` only decorates the meal text through a global registry and
  never touches the macros; it is outside this model, whose texts are the
  pre-decoration strings.  The integer draws (`_pick`, `randint`) each
  consume one stream position (see the randomness note above); `_clamp_int`'s
  `int(round(x))` is the identity on the integer draws it receives. -/

structure NEntry where
  kcal : ℚ
  carb : ℚ
  prot : ℚ
  fat : ℚ
  fib : ℚ
  na : ℚ
deriving DecidableEq

def NUTR : List (String × NEntry) := [
  ("tamees", ⟨275, 52, 9, 3, 3, 450⟩),
  ("whole-wheat tamees", ⟨260, 49, 10, 3, 6, 440⟩),
  ("samoon", ⟨280, 54, 9, 3, 5/2, 500⟩),
  ("markook", ⟨260, 53, 8, 2, 3, 400⟩),
  ("pita", ⟨260, 55, 9, 3/2, 5/2, 400⟩),
  ("kubz arabi", ⟨260, 55, 9, 3/2, 5/2, 400⟩),
  ("ful medames", ⟨110, 19, 38/5, 3/5, 8, 250⟩),
  ("labneh", ⟨130, 5, 10, 7, 0, 200⟩),
  ("hummus", ⟨177, 143/10, 79/10, 43/5, 6, 240⟩),
  ("feta", ⟨265, 4, 14, 21, 0, 1100⟩),
  ("peanut butter", ⟨588, 20, 25, 50, 6, 400⟩),
  ("white cheese", ⟨280, 3, 20, 22, 0, 700⟩),
  ("scrambled eggs", ⟨155, 11/10, 13, 11, 0, 125⟩),
  ("boiled eggs", ⟨155, 11/10, 13, 11, 0, 125⟩),
  ("omelette", ⟨180, 2, 12, 14, 0, 135⟩),
  ("chicken breast", ⟨165, 0, 31, 18/5, 0, 74⟩),
  ("lamb", ⟨294, 0, 25, 21, 0, 70⟩),
  ("beef", ⟨250, 0, 26, 15, 0, 72⟩),
  ("shrimp", ⟨99, 1/5, 24, 3/10, 0, 150⟩),
  ("white fish", ⟨120, 0, 26, 3/2, 0, 90⟩),
  ("tuna", ⟨132, 0, 29, 1, 0, 320⟩),
  ("kabsa", ⟨170, 30, 4, 3, 1, 300⟩),
  ("mandi", ⟨160, 29, 4, 5/2, 1, 260⟩),
  ("saleeq", ⟨140, 24, 4, 5/2, 1/2, 250⟩),
  ("sayadiyah", ⟨165, 28, 6, 3, 1, 350⟩),
  ("simple salad", ⟨35, 7, 3/2, 1/5, 5/2, 50⟩),
  ("cucumber sticks", ⟨16, 18/5, 7/10, 1/10, 1/2, 2⟩),
  ("carrot sticks", ⟨41, 10, 9/10, 1/5, 14/5, 69⟩),
  ("roasted zucchini", ⟨30, 6, 6/5, 2/5, 2, 5⟩),
  ("okra stew", ⟨70, 9, 2, 3, 3, 300⟩),
  ("grilled peppers", ⟨31, 6, 1, 3/10, 2, 4⟩),
  ("laban", ⟨40, 3, 3, 2, 0, 45⟩),
  ("mint tea", ⟨1, 1/5, 0, 0, 0, 2⟩),
  ("Arabic coffee", ⟨2, 3/10, 1/10, 0, 0, 5⟩),
  ("black tea", ⟨1, 1/10, 0, 0, 0, 3⟩),
  ("water", ⟨0, 0, 0, 0, 0, 0⟩),
  ("dates", ⟨282, 75, 5/2, 2/5, 8, 2⟩),
  ("banana", ⟨89, 23, 11/10, 3/10, 13/5, 1⟩),
  ("orange", ⟨47, 12, 9/10, 1/10, 12/5, 1⟩),
  ("apple", ⟨52, 14, 3/10, 1/5, 12/5, 1⟩),
  ("berries", ⟨57, 14, 1, 3/10, 5, 1⟩),
  ("grapes", ⟨69, 18, 7/10, 1/5, 1, 2⟩),
  ("tahini lemon dip", ⟨595, 21, 17, 53, 9, 10⟩),
  ("yogurt", ⟨59, 18/5, 10, 2/5, 0, 36⟩),
  ("garlic sauce", ⟨500, 10, 4, 48, 1, 600⟩),
  ("tomato salsa", ⟨29, 7, 3/2, 1/5, 3/2, 300⟩),
  ("pickles", ⟨12, 5/2, 3/10, 1/5, 6/5, 785⟩)]

def nutrGet (name : String) : Option NEntry :=
  (NUTR.find? (fun p => p.1 == name)).map (·.2)

def BREADS : List String :=
  ["tamees", "whole-wheat tamees", "samoon", "markook", "pita", "kubz arabi"]

def SPREADS : List String :=
  ["ful medames", "labneh", "hummus", "feta", "peanut butter", "white cheese"]

def EGGS : List String := ["scrambled eggs", "boiled eggs", "omelette"]

def PROTEINS : List String :=
  ["chicken breast", "lamb", "beef", "shrimp", "white fish", "tuna"]

def RICE_DISH : List String := ["kabsa", "mandi", "saleeq", "sayadiyah"]

def SIDES : List String :=
  ["simple salad", "cucumber sticks", "carrot sticks", "roasted zucchini",
   "okra stew", "grilled peppers"]

def DRINKS : List String := ["laban", "mint tea", "Arabic coffee", "black tea", "water"]

def FRUITS : List String := ["dates", "banana", "orange", "apple", "berries", "grapes"]

def SAUCES : List String :=
  ["tahini lemon dip", "yogurt", "garlic sauce", "tomato salsa", "pickles"]

/-- The accumulating totals of `_sum_macros` (dict field order kept). -/
structure Macro6 where
  kcal : ℚ
  carb : ℚ
  fat : ℚ
  prot : ℚ
  fib : ℚ
  na : ℚ
deriving DecidableEq

/-- The raw per-100 accumulation of `_sum_macros` (unknown items skipped,
`g` and `ml` share the factor). -/
def sumMacrosRaw (items : List (String × ℤ × String)) : Macro6 :=
  items.foldl (fun acc it =>
    match nutrGet it.1 with
    | none => acc
    | some per =>
      let factor := (it.2.1 : ℚ) / 100
      { kcal := acc.kcal + per.kcal * factor, carb := acc.carb + per.carb * factor,
        fat := acc.fat + per.fat * factor, prot := acc.prot + per.prot * factor,
        fib := acc.fib + per.fib * factor, na := acc.na + per.na * factor })
    ⟨0, 0, 0, 0, 0, 0⟩

/-- `_sum_macros`: the raw sums rounded to one decimal, then the kcal figure
overridden by the 4/4/9 rule on the rounded macros. -/
def sumMacros (items : List (String × ℤ × String)) : Macro6 :=
  let raw := sumMacrosRaw items
  let r : Macro6 :=
    { kcal := pyRound 1 raw.kcal, carb := pyRound 1 raw.carb, fat := pyRound 1 raw.fat,
      prot := pyRound 1 raw.prot, fib := pyRound 1 raw.fib, na := pyRound 1 raw.na }
  { r with kcal := pyRound 1 (4 * r.carb + 4 * r.prot + 9 * r.fat) }

/-- `_clamp_int` on the integer draws it receives. -/
def clampIntZ (x lo hi : ℤ) : ℤ := max lo (min hi x)

/-- `rnd.randint(a, b)`, both ends inclusive, from one draw. -/
def randIntQ (a b : ℤ) (u : ℚ) : ℤ := a + (randBelow (b - a + 1).toNat u : ℤ)

/-- `_pick(rng, arr)`. -/
def pickQ (arr : List String) (u : ℚ) : String := arr.getD (randBelow arr.length u) ""

def W1 : String := "07:30–09:30 — Breakfast:"
def W2 : String := "12:30–14:30 — Lunch:"
def W3 : String := "17:00–18:30 — Snack:"
def W4 : String := "20:00–22:00 — Dinner:"

def amt (g : ℤ) : String := toString g

def composeBreakfast (u : RS) : String × List (String × ℤ × String) :=
  let bread := pickQ BREADS (u 0)
  let gBread := clampIntZ (randIntQ 90 140 (u 1)) 60 180
  let spreadOrEggs := pickQ (SPREADS ++ EGGS) (u 2)
  let gSpread := if spreadOrEggs ∈ SPREADS then clampIntZ (randIntQ 70 120 (u 3)) 40 150
                 else clampIntZ (randIntQ 90 120 (u 3)) 80 140
  let fruit := pickQ FRUITS (u 4)
  let gFruit := clampIntZ (randIntQ 80 120 (u 5)) 60 180
  let drink := pickQ DRINKS (u 6)
  let mlDrink := clampIntZ (randIntQ 150 250 (u 7)) 100 300
  (W1 ++ " " ++ bread ++ " (" ++ amt gBread ++ " g), " ++ spreadOrEggs ++ " ("
      ++ amt gSpread ++ " g), " ++ fruit ++ " (" ++ amt gFruit ++ " g), "
      ++ drink ++ " (" ++ amt mlDrink ++ " ml)",
   [(bread, gBread, "g"), (spreadOrEggs, gSpread, "g"),
    (fruit, gFruit, "g"), (drink, mlDrink, "ml")])

def composeLunch (u : RS) : String × List (String × ℤ × String) :=
  let rice := pickQ RICE_DISH (u 0)
  let gRice := clampIntZ (randIntQ 260 380 (u 1)) 200 450
  let protein := pickQ PROTEINS (u 2)
  let gProt := clampIntZ (randIntQ 150 200 (u 3)) 120 240
  let side := pickQ SIDES (u 4)
  let gSide := clampIntZ (randIntQ 100 160 (u 5)) 80 200
  let drink := pickQ DRINKS (u 6)
  let mlDrink := clampIntZ (randIntQ 160 240 (u 7)) 120 300
  (W2 ++ " " ++ rice ++ " (" ++ amt gRice ++ " g) + " ++ protein ++ " ("
      ++ amt gProt ++ " g), " ++ side ++ " (" ++ amt gSide ++ " g), "
      ++ drink ++ " (" ++ amt mlDrink ++ " ml)",
   [(rice, gRice, "g"), (protein, gProt, "g"), (side, gSide, "g"),
    (drink, mlDrink, "ml")])

def composeSnack (u : RS) : String × List (String × ℤ × String) :=
  let spread := pickQ SPREADS (u 0)
  let gSpread := clampIntZ (randIntQ 90 140 (u 1)) 60 160
  let bread := pickQ BREADS (u 2)
  let gBread := clampIntZ (randIntQ 70 110 (u 3)) 50 140
  let fruit := pickQ FRUITS (u 4)
  let gFruit := clampIntZ (randIntQ 70 110 (u 5)) 50 150
  (W3 ++ " " ++ spread ++ " (" ++ amt gSpread ++ " g) with " ++ bread ++ " ("
      ++ amt gBread ++ " g), " ++ fruit ++ " (" ++ amt gFruit ++ " g)",
   [(spread, gSpread, "g"), (bread, gBread, "g"), (fruit, gFruit, "g")])

def composeDinner (u : RS) : String × List (String × ℤ × String) :=
  if u 0 < 1/2 then
    let rice := pickQ RICE_DISH (u 1)
    let gRice := clampIntZ (randIntQ 220 340 (u 2)) 180 400
    let protein := pickQ PROTEINS (u 3)
    let gProt := clampIntZ (randIntQ 150 200 (u 4)) 120 240
    let side := pickQ SIDES (u 5)
    let gSide := clampIntZ (randIntQ 100 160 (u 6)) 80 200
    let sauce := pickQ SAUCES (u 7)
    let gSauce := clampIntZ (randIntQ 20 35 (u 8)) 15 40
    (W4 ++ " " ++ rice ++ " (" ++ amt gRice ++ " g) + " ++ protein ++ " ("
        ++ amt gProt ++ " g), " ++ side ++ " (" ++ amt gSide ++ " g), "
        ++ sauce ++ " (" ++ amt gSauce ++ " g)",
     [(rice, gRice, "g"), (protein, gProt, "g"), (side, gSide, "g"),
      (sauce, gSauce, "g")])
  else
    let protein := pickQ PROTEINS (u 1)
    let gProt := clampIntZ (randIntQ 170 220 (u 2)) 140 260
    let side := pickQ SIDES (u 3)
    let gSide := clampIntZ (randIntQ 120 180 (u 4)) 90 220
    let sauce := pickQ SAUCES (u 5)
    let gSauce := clampIntZ (randIntQ 20 35 (u 6)) 15 40
    let breadOrRice := pickQ (BREADS ++ RICE_DISH) (u 7)
    let gBr := if breadOrRice ∈ BREADS then clampIntZ (randIntQ 80 130 (u 8)) 60 180
               else clampIntZ (randIntQ 200 320 (u 8)) 160 400
    (W4 ++ " grilled " ++ protein ++ " (" ++ amt gProt ++ " g), " ++ side ++ " ("
        ++ amt gSide ++ " g), " ++ sauce ++ " (" ++ amt gSauce ++ " g), "
        ++ breadOrRice ++ " (" ++ amt gBr ++ " g)",
     [(protein, gProt, "g"), (side, gSide, "g"), (sauce, gSauce, "g"),
      (breadOrRice, gBr, "g")])

/-- Slot dispatch of `_compose_meal` (slot 1 breakfast, 2 lunch, 3 snack,
anything else dinner). -/
def composeSlot (slot : ℕ) (u : RS) : String × List (String × ℤ × String) :=
  if slot = 1 then composeBreakfast u
  else if slot = 2 then composeLunch u
  else if slot = 3 then composeSnack u
  else composeDinner u

/-- The per-slot kcal plausibility band `250 <= kcal <= 1200`. -/
def bandOK (k : ℚ) : Bool := decide (250 ≤ k ∧ k ≤ 1200)

/-- `_compose_meal`: try attempts 0–11 (each with its own derived stream
`Ξ a`), accept the first whose reconciled kcal is in band; if none is, build
a fresh fallback composition with attempt counter 999 and accept it
regardless of the band.  Total: no error outcome exists. -/
def composeMeal (slot : ℕ) (Ξ : ℕ → RS) : String × Macro6 :=
  match (List.range 12).find?
      (fun a => bandOK (sumMacros (composeSlot slot (Ξ a)).2).kcal) with
  | some a => ((composeSlot slot (Ξ a)).1, sumMacros (composeSlot slot (Ξ a)).2)
  | none => ((composeSlot slot (Ξ 999)).1, sumMacros (composeSlot slot (Ξ 999)).2)

theorem sumMacros_kcal_rule (items : List (String × ℤ × String)) :
    (sumMacros items).kcal
      = pyRound 1 (4 * (sumMacros items).carb + 4 * (sumMacros items).prot
          + 9 * (sumMacros items).fat)
    ∧ (sumMacros items).kcal
      = 4 * (sumMacros items).carb + 4 * (sumMacros items).prot
          + 9 * (sumMacros items).fat := by
  refine ⟨rfl, ?_⟩
  have hc : (sumMacros items).carb = pyRound 1 (sumMacrosRaw items).carb := rfl
  have hp : (sumMacros items).prot = pyRound 1 (sumMacrosRaw items).prot := rfl
  have hf : (sumMacros items).fat = pyRound 1 (sumMacrosRaw items).fat := rfl
  show pyRound 1 (4 * (sumMacros items).carb + 4 * (sumMacros items).prot
      + 9 * (sumMacros items).fat) = _
  apply pyRound_eq_of_int_mul 1 _
    (4 * rhe ((sumMacrosRaw items).carb * (10 : ℚ) ^ 1)
      + 4 * rhe ((sumMacrosRaw items).prot * (10 : ℚ) ^ 1)
      + 9 * rhe ((sumMacrosRaw items).fat * (10 : ℚ) ^ 1))
  have e1 := pyRound_den 1 ((sumMacrosRaw items).carb)
  have e2 := pyRound_den 1 ((sumMacrosRaw items).prot)
  have e3 := pyRound_den 1 ((sumMacrosRaw items).fat)
  rw [hc, hp, hf]
  push_cast
  nlinarith [e1, e2, e3]

theorem composeMeal_exhausted (slot : ℕ) (Ξ : ℕ → RS)
    (h : ∀ a < 12, bandOK (sumMacros (composeSlot slot (Ξ a)).2).kcal = false) :
    composeMeal slot Ξ
      = ((composeSlot slot (Ξ 999)).1, sumMacros (composeSlot slot (Ξ 999)).2) := by
  unfold composeMeal
  have hfind : (List.range 12).find?
      (fun a => bandOK (sumMacros (composeSlot slot (Ξ a)).2).kcal) = none := by
    apply List.find?_eq_none.mpr
    intro a ha
    rw [h a (List.mem_range.mp ha)]
    exact Bool.false_ne_true
  rw [hfind]

theorem composeMeal_total (slot : ℕ) (Ξ : ℕ → RS) :
    ∃ a : ℕ, (a < 12 ∨ a = 999) ∧
      composeMeal slot Ξ
        = ((composeSlot slot (Ξ a)).1, sumMacros (composeSlot slot (Ξ a)).2) := by
  unfold composeMeal
  cases hfind : (List.range 12).find?
      (fun a => bandOK (sumMacros (composeSlot slot (Ξ a)).2).kcal) with
  | none => exact ⟨999, Or.inr rfl, rfl⟩
  | some a =>
    exact ⟨a, Or.inl (List.mem_range.mp (List.mem_of_find?_eq_some hfind)), rfl⟩

theorem composeMeal_inband (slot : ℕ) (Ξ : ℕ → RS) (a : ℕ)
    (hfind : (List.range 12).find?
      (fun a => bandOK (sumMacros (composeSlot slot (Ξ a)).2).kcal) = some a) :
    composeMeal slot Ξ
      = ((composeSlot slot (Ξ a)).1, sumMacros (composeSlot slot (Ξ a)).2)
    ∧ bandOK (sumMacros (composeSlot slot (Ξ a)).2).kcal = true := by
  constructor
  · unfold composeMeal
    rw [hfind]
  · have h2 := List.find?_some
      (p := fun x => bandOK (sumMacros (composeSlot slot (Ξ x)).2).kcal) hfind
    simpa using h2

/-! ## ISO week identifiers (`utils_time_dual.py`)

  The proleptic-Gregorian ordinal arithmetic of CPython's `datetime`
  (`_ymd2ord`, `_ord2ymd`, `_isoweek1monday`), `date.fromisocalendar`,
  `date.isocalendar`, and on top of them `parse_week_id` / `week_monday` /
  `next_week_id` / `week_id_sequence`.  Errors (`ValueError`) are `none`.
  `int()` is modelled for plain digit strings, the only form the
  `Week_YYYY_WW` labels use. -/

def isLeap (y : ℕ) : Bool := y % 4 == 0 && (!(y % 100 == 0) || y % 400 == 0)

def daysInMonth (y m : ℕ) : ℕ :=
  if m = 2 then (if isLeap y then 29 else 28)
  else if m = 4 ∨ m = 6 ∨ m = 9 ∨ m = 11 then 30
  else 31

def daysBeforeMonth (y m : ℕ) : ℕ :=
  (List.range (m - 1)).foldl (fun acc i => acc + daysInMonth y (i + 1)) 0

def daysBeforeYear (y : ℕ) : ℕ :=
  (y - 1) * 365 + (y - 1) / 4 - (y - 1) / 100 + (y - 1) / 400

/-- `_ymd2ord`: proleptic Gregorian ordinal, day 1 = 0001-01-01. -/
def ymd2ord (y m d : ℕ) : ℕ := daysBeforeYear y + daysBeforeMonth y m + d

/-- `_ord2ymd`. -/
def ord2ymd (nn : ℕ) : ℕ × ℕ × ℕ :=
  let n0 := nn - 1
  let n400 := n0 / 146097
  let na := n0 % 146097
  let n100 := na / 36524
  let nb := na % 36524
  let n4 := nb / 1461
  let nc := nb % 1461
  let n1 := nc / 365
  let n := nc % 365
  let year := n400 * 400 + 1 + n100 * 100 + n4 * 4 + n1
  if n1 = 4 ∨ n100 = 4 then (year - 1, 12, 31)
  else
    let month := (n + 50) / 32
    let preceding := daysBeforeMonth year month
    if preceding > n then
      (year, month - 1, n - (preceding - daysInMonth year (month - 1)) + 1)
    else (year, month, n - preceding + 1)

/-- `_isoweek1monday`: ordinal of the Monday of ISO week 1 of year `y`. -/
def isoweek1monday (y : ℕ) : ℤ :=
  let firstday : ℤ := ymd2ord y 1 1
  let firstweekday := (firstday + 6) % 7
  let w1m := firstday - firstweekday
  if firstweekday > 3 then w1m + 7 else w1m

/-- `date.isocalendar`, year and week only (the weekday is unused here). -/
def isoYearWeek (o : ℕ) : ℕ × ℕ :=
  let year := (ord2ymd o).1
  let week : ℤ := ((o : ℤ) - isoweek1monday year).fdiv 7
  if week < 0 then
    (year - 1, (((o : ℤ) - isoweek1monday (year - 1)).fdiv 7 + 1).toNat)
  else if 52 ≤ week ∧ isoweek1monday (year + 1) ≤ (o : ℤ) then (year + 1, 1)
  else (year, (week + 1).toNat)

/-- `date.fromisocalendar(y, w, d)` as an ordinal, with CPython's
validation. -/
def fromIsoCalendar (y w d : ℕ) : Option ℕ :=
  if ¬ (1 ≤ y ∧ y ≤ 9999) then none
  else if ¬ (1 ≤ w ∧ w ≤ 53) then none
  else if w = 53 ∧ ¬ (ymd2ord y 1 1 % 7 = 4 ∨ (ymd2ord y 1 1 % 7 = 3 ∧ isLeap y))
    then none
  else if ¬ (1 ≤ d ∧ d ≤ 7) then none
  else some (isoweek1monday y + ((w - 1) * 7 + (d - 1) : ℕ)).toNat

/-- `int()` on the plain digit strings the week labels carry. -/
def parseNatDigits (s : String) : Option ℕ :=
  if s.data ≠ [] ∧ s.data.all Char.isDigit then some (digitsToNat s.data) else none

/-- `str.split("_")` at the character level. -/
def splitOnChar (c : Char) : List Char → List (List Char)
  | [] => [[]]
  | x :: t =>
    match splitOnChar c t with
    | [] => [[x]]
    | h :: rt => if x == c then [] :: h :: rt else (x :: h) :: rt

/-- `parse_week_id`: `Week_YYYY_WW` or `ValueError`. -/
def parseWeekId (wid : String) : Option (ℕ × ℕ) :=
  match (splitOnChar '_' wid.data).map String.mk with
  | [a, ys, ws] =>
    if a = "Week" then do
      let y ← parseNatDigits ys
      let w ← parseNatDigits ws
      pure (y, w)
    else none
  | _ => none

/-- `week_monday`. -/
def weekMonday (wid : String) : Option ℕ := do
  let yw ← parseWeekId wid
  fromIsoCalendar yw.1 yw.2 1

/-- `next_week_id`: advance 7 days from this week's Monday and re-derive the
(unpadded) `Week_YYYY_WW` label. -/
def nextWeekId (wid : String) : Option String := do
  let mon ← weekMonday wid
  let yw := isoYearWeek (mon + 7)
  pure ("Week_" ++ toString yw.1 ++ "_" ++ toString yw.2)

/-- The loop body of `week_id_sequence`: `n` further labels from `cur`. -/
def weekSeqAux : ℕ → String → Option (List String)
  | 0, _ => some []
  | n + 1, cur => do
    let nxt ← nextWeekId cur
    let rest ← weekSeqAux n nxt
    pure (nxt :: rest)

/-- `week_id_sequence`. -/
def weekIdSequence (start : String) (total : ℤ) (includeStart : Bool) :
    Option (List String) :=
  if total ≤ 0 then some []
  else do
    let rest ← weekSeqAux (total - (if includeStart then 1 else 0)).toNat start
    pure ((if includeStart then [start] else []) ++ rest)

/-- Parsed `(year, week)` pairs of a label list (labels that fail to parse
are dropped; the theorems check none are dropped). -/
def weekPairsOf (l : List String) : List (ℕ × ℕ) := l.filterMap parseWeekId

/-- Consecutive ISO week labels: same year next week, or week 1 of the next
year. -/
def isoSucc (a b : ℕ × ℕ) : Bool :=
  (b.1 == a.1 && b.2 == a.2 + 1) || (b.1 == a.1 + 1 && b.2 == 1)

/-- Strict lexicographic order on `(year, week)`. -/
def isoLt (a b : ℕ × ℕ) : Bool :=
  a.1 < b.1 || (a.1 == b.1 && a.2 < b.2)

/-- Every adjacent pair of the list satisfies `R`. -/
def chainOK (R : ℕ × ℕ → ℕ × ℕ → Bool) : List (ℕ × ℕ) → Bool
  | [] => true
  | [_] => true
  | a :: b :: t => R a b && chainOK R (b :: t)

/-- Every ordered pair of the list satisfies `R`. -/
def pairwiseOK (R : ℕ × ℕ → ℕ × ℕ → Bool) : List (ℕ × ℕ) → Bool
  | [] => true
  | a :: t => t.all (R a) && pairwiseOK R t

/-! ## `build_week1_payloads` (`utils_sim_dual.py`)

  The numeric fields of the week-1 log.  The free-text fields, `Date` and
  `Time` depend on the wall clock and a separately seeded generator and are
  outside the model; the persona-seeded generator is the stream `u` (draws in
  source order: 0 the multiplier noise, 1–3 the three deltas, 4 the sleep
  noise). -/

theorem rhe_le_intCast (x : ℚ) (z : ℤ) (h : x ≤ (z : ℚ)) : rhe x ≤ z := by
  have hfl : ⌊x⌋ ≤ z := by
    have h2 := Int.floor_le_floor h
    simpa using h2
  unfold rhe
  rcases lt_or_eq_of_le hfl with hlt | heq
  · dsimp only
    split
    · omega
    · split
      · omega
      · split <;> omega
  · have hx : x - (⌊x⌋ : ℚ) ≤ 0 := by
      rw [heq]
      linarith
    dsimp only
    rw [if_pos (by linarith : x - (⌊x⌋ : ℚ) < 1/2)]
    omega

theorem intCast_le_rhe (x : ℚ) (z : ℤ) (h : (z : ℚ) ≤ x) : z ≤ rhe x := by
  have hfl : z ≤ ⌊x⌋ := Int.le_floor.mpr h
  unfold rhe
  dsimp only
  split
  · exact hfl
  · split
    · omega
    · split <;> omega

theorem pyRound_le_intCast (nd : ℕ) (x : ℚ) (z : ℤ) (h : x ≤ (z : ℚ)) :
    pyRound nd x ≤ (z : ℚ) := by
  unfold pyRound
  have hp : (0 : ℚ) < (10 : ℚ) ^ nd := by positivity
  rw [div_le_iff₀ hp]
  have hz : x * (10 : ℚ) ^ nd ≤ ((z * 10 ^ nd : ℤ) : ℚ) := by
    push_cast
    exact mul_le_mul_of_nonneg_right h (le_of_lt hp)
  have h2 := rhe_le_intCast _ _ hz
  calc ((rhe (x * (10 : ℚ) ^ nd) : ℤ) : ℚ) ≤ ((z * 10 ^ nd : ℤ) : ℚ) := by
        exact_mod_cast h2
    _ = (z : ℚ) * (10 : ℚ) ^ nd := by push_cast; ring

theorem intCast_le_pyRound (nd : ℕ) (x : ℚ) (z : ℤ) (h : (z : ℚ) ≤ x) :
    (z : ℚ) ≤ pyRound nd x := by
  unfold pyRound
  have hp : (0 : ℚ) < (10 : ℚ) ^ nd := by positivity
  rw [le_div_iff₀ hp]
  have hz : ((z * 10 ^ nd : ℤ) : ℚ) ≤ x * (10 : ℚ) ^ nd := by
    push_cast
    exact mul_le_mul_of_nonneg_right h (le_of_lt hp)
  have h2 := intCast_le_rhe _ _ hz
  calc (z : ℚ) * (10 : ℚ) ^ nd = ((z * 10 ^ nd : ℤ) : ℚ) := by push_cast; ring
    _ ≤ ((rhe (x * (10 : ℚ) ^ nd) : ℤ) : ℚ) := by exact_mod_cast h2

/-- `_clamp(x, lo, hi)`. -/
def clampQ (x lo hi : ℚ) : ℚ := max lo (min hi x)

theorem clampQ_le (x lo hi : ℚ) (h : lo ≤ hi) : clampQ x lo hi ≤ hi :=
  max_le h (min_le_left _ _)

theorem le_clampQ (x lo hi : ℚ) : lo ≤ clampQ x lo hi := le_max_left _ _

/-- `_adherence_factor`. -/
def adherenceFactor (adher : String) : ℚ :=
  if adher = "" then 9/10
  else
    let a := lowerAscii adher
    if strContains a "high" then 51/50
    else if strContains a "med" || strContains a "mod" then 19/20
    else if strContains a "low" then 17/20
    else match pyFloatParse a with
      | some v => max (3/4) (min (21/20) v)
      | none => 9/10

/-- `_days_bonus`. -/
def daysBonus (d : ℤ) : ℚ :=
  if 5 ≤ d then 11/10
  else if d = 4 then 21/20
  else if d = 3 then 1
  else 19/20

/-- `_sleep_bonus`. -/
def sleepBonus (h : ℚ) : ℚ :=
  if 8 ≤ h then 53/50
  else if 7 ≤ h then 103/100
  else if 6 ≤ h then 1
  else 47/50

/-- `_goal_deltas`: ranges for (weight, muscle, fat) weekly deltas. -/
def goalDeltasR (goal : String) : (ℚ × ℚ) × (ℚ × ℚ) × (ℚ × ℚ) :=
  let g := lowerAscii goal
  if strContains g "fat" || strContains g "cut" || strContains g "loss" then
    ((-1, -1/5), (0, 1/5), (-1, -1/5))
  else if strContains g "muscle" || strContains g "gain" || strContains g "bulk" then
    ((-1/10, 3/5), (1/10, 9/20), (-3/10, 1/10))
  else if strContains g "recomp" || strContains g "re-com" then
    ((-2/5, 3/10), (1/20, 1/4), (-3/5, 0))
  else ((-1/5, 1/5), (0, 3/20), (-1/5, 1/5))

/-- `_to_float(persona.get("Weight_kg"), 70.0)`. -/
def preWRaw (persona : Jmap) : ℚ := toFloatV 70 (getV persona "Weight_kg")

/-- Raw pre muscle mass, defaulting to `max(0.35*pre_w, 22.0)`. -/
def preMusRaw (persona : Jmap) : ℚ :=
  toFloatV (max (7/20 * preWRaw persona) 22) (getV persona "Muscle_mass_kg")

/-- Raw pre fat percentage. -/
def preFatRaw (persona : Jmap) : ℚ := toFloatV 20 (getV persona "Fat_percent")

/-- `int(_to_float(persona.get("Days_per_week"), 3))`. -/
def daysOf (persona : Jmap) : ℤ := ratTrunc (toFloatV 3 (getV persona "Days_per_week"))

/-- `_to_float(persona.get("Sleep_hours"), 7.0)`. -/
def sleepHOf (persona : Jmap) : ℚ := toFloatV 7 (getV persona "Sleep_hours")

/-- `str(persona.get("Adherence_propensity", "Moderate"))`. -/
def adherStrOf (persona : Jmap) : String :=
  match persona "Adherence_propensity" with
  | none => "Moderate"
  | some v => pyStr v

/-- `str(persona.get("Primary_goal", "maintenance"))`. -/
def goalSimOf (persona : Jmap) : String :=
  match persona "Primary_goal" with
  | none => "maintenance"
  | some v => pyStr v

/-- `_to_float(diet.get("Total_kcal_target_kcal"), 2000.0)`. -/
def kcalTargetOf (diet : Jmap) : ℚ := toFloatV 2000 (getV diet "Total_kcal_target_kcal")

/-- The numeric fields of the `logs` payload. -/
structure W1Log where
  dailyAvgKcal : ℚ
  preW : ℚ
  preMus : ℚ
  preFat : ℚ
  postW : ℚ
  postMus : ℚ
  postFat : ℚ
  deltaW : ℚ
  deltaMus : ℚ
  deltaFat : ℚ
  sleepAvg : ℚ
deriving DecidableEq

/-- `build_week1_payloads`, numeric part. -/
def buildWeek1 (persona diet : Jmap) (u : RS) : W1Log :=
  let preW := preWRaw persona
  let preMus := preMusRaw persona
  let preFat := preFatRaw persona
  let mult := adherenceFactor (adherStrOf persona) * daysBonus (daysOf persona)
      * sleepBonus (sleepHOf persona) * uniformAt (97/100) (103/100) (u 0)
  let kcalT := kcalTargetOf diet
  let daily := pyRound 1 (clampQ (kcalT * mult) 1200 4500)
  let goal := goalSimOf persona
  let r := goalDeltasR goal
  let tighten := mult - 19/20
  let dw := uniformAt r.1.1 r.1.2 (u 1) * (1 + 6/10 * tighten)
  let dm0 := uniformAt r.2.1.1 r.2.1.2 (u 2) * (1 + 8/10 * tighten)
  let df := uniformAt r.2.2.1 r.2.2.2 (u 3) * (1 + 7/10 * tighten)
  let dm := if daily < kcalT * (9/10) ∧ strContains (lowerAscii goal) "gain"
    then dm0 * (6/10) else dm0
  let postW := pyRound 2 (clampQ (preW + dw) 30 250)
  let postMus := pyRound 2 (clampQ (preMus + dm) 8 120)
  let postFat := pyRound 2 (clampQ (preFat + df) 3 65)
  { dailyAvgKcal := daily
    preW := pyRound 2 preW
    preMus := pyRound 2 preMus
    preFat := pyRound 2 preFat
    postW := postW
    postMus := postMus
    postFat := postFat
    deltaW := pyRound 2 (postW - preW)
    deltaMus := pyRound 2 (postMus - preMus)
    deltaFat := pyRound 2 (postFat - preFat)
    sleepAvg := pyRound 2 (clampQ (sleepHOf persona + uniformAt (-3/10) (4/10) (u 4)) 4 10) }

/-! ## `simulate_week_with_claude_fallback`
    (`experiments/exp2_acegpt_claude/claude_client_v12.py`)

  The numeric fields of the fallback weekly log.  `Date`/`Time` and the
  feedback/notes texts depend on the wall clock and separately re-seeded
  generators (`_mk_feedback`/`_mk_notes` build fresh `Random` objects from
  the same seed and never advance this stream) and are outside the model.
  Stream draws in source order: 0 the daily-kcal noise, 1 the weight delta
  noise, 2 the muscle delta noise, 3 the sleep noise. -/

/-- `float(x or default)`: a falsy value gives the default, a truthy number
(or `True`, an `int` instance) its float value, a truthy string its parse.
Python raises on a truthy unparseable string or non-scalar; such inputs are
outside the model. -/
def pyFloatOr (d : ℚ) (v : PyVal) : ℚ :=
  if truthy v then
    match v with
    | .vnum q => q
    | .vbool _ => 1
    | .vstr s => (pyFloatParse s).getD d
    | _ => d
  else d

/-- `float(persona.get("Weight_kg", 75.0) or 75.0)`. -/
def fbPreW (p : Jmap) : ℚ := pyFloatOr 75 (getV p "Weight_kg")

/-- `float(persona.get("Muscle_mass_kg", 30.0) or 30.0)`. -/
def fbPreM (p : Jmap) : ℚ := pyFloatOr 30 (getV p "Muscle_mass_kg")

/-- `float(persona.get("Fat_percent", 25.0) or 25.0)`. -/
def fbPreF (p : Jmap) : ℚ := pyFloatOr 25 (getV p "Fat_percent")

/-- `float(persona.get("Adherence_propensity", 0.65) or 0.65)`. -/
def fbAdher (p : Jmap) : ℚ := pyFloatOr (13/20) (getV p "Adherence_propensity")

/-- The raw weight delta `dW` of the fallback simulator (draw 1). -/
def fbDW (p : Jmap) (u : RS) : ℚ :=
  let adher := fbAdher p
  let goal := goalStrOf p
  if strContains goal "fat" then
    -(35/100) * adher + uniformAt (-(8/100)) (2/100) (u 1)
  else if strContains goal "muscle" then
    (20/100) * adher + uniformAt (-(5/100)) (12/100) (u 1)
  else
    (-(5/100) + (10/100) * (adher - 1/2)) + uniformAt (-(6/100)) (6/100) (u 1)

/-- The raw muscle delta `dM` of the fallback simulator (draw 2). -/
def fbDM (p : Jmap) (u : RS) : ℚ :=
  let adher := fbAdher p
  let goal := goalStrOf p
  if strContains goal "fat" then
    (3/100) * adher + uniformAt (-(2/100)) (5/100) (u 2)
  else if strContains goal "muscle" then
    (10/100) * adher + uniformAt 0 (10/100) (u 2)
  else
    (5/100) * adher + uniformAt (-(2/100)) (6/100) (u 2)

/-- Raw post weight `post_w = pre_w + dW` (no clamp). -/
def fbPostW (p : Jmap) (u : RS) : ℚ := fbPreW p + fbDW p u

/-- Raw post muscle `post_m = pre_m + dM` (no clamp). -/
def fbPostM (p : Jmap) (u : RS) : ℚ := fbPreM p + fbDM p u

/-- Fat mass after the asymmetric weight-delta coupling. -/
def fbFatKg (p : Jmap) (u : RS) : ℚ :=
  fbPreW p * (fbPreF p / 100)
    + (if fbDW p u < 0 then (75/100) * fbDW p u else (30/100) * fbDW p u)

/-- Raw post fat percentage, clamped into `[5, 60]`. -/
def fbPostF (p : Jmap) (u : RS) : ℚ :=
  max 5 (min (fbFatKg p u / max (fbPostW p u) (1/10) * 100) 60)

/-- `simulate_week_with_claude_fallback`, numeric part. -/
def simulateFallback (persona diet : Jmap) (u : RS) : W1Log :=
  { dailyAvgKcal := pyRound 1 (pyFloatOr 2000 (getV diet "Total_kcal_target_kcal")
        * (82/100 + 38/100 * fbAdher persona) + uniformAt (-60) 60 (u 0))
    preW := pyRound 2 (fbPreW persona)
    preMus := pyRound 2 (fbPreM persona)
    preFat := pyRound 2 (fbPreF persona)
    postW := pyRound 2 (fbPostW persona u)
    postMus := pyRound 2 (fbPostM persona u)
    postFat := pyRound 2 (fbPostF persona u)
    deltaW := pyRound 2 (fbDW persona u)
    deltaMus := pyRound 2 (fbDM persona u)
    deltaFat := pyRound 2 (fbPostF persona u - fbPreF persona)
    sleepAvg := pyRound 2 (pyFloatOr 7 (getV persona "Sleep_hours")
        + (2/10) * (fbAdher persona - 1/2) + uniformAt (-(25/100)) (25/100) (u 3)) }

/-! ## SHA-256 (`hashlib.sha256`)

  `_sha_seed` keeps only the first 12 hex characters of the digest — the top
  48 bits of the 256-bit value — so the seed space of `diversify_meals` has at
  most `2^48` elements while the nonce ranges over all of `ℕ`. -/

/-- UTF-8 bytes of a string (`s.encode("utf-8")`). -/
def utf8Bytes (s : String) : List ℕ :=
  s.data.flatMap (fun c =>
    let n := c.toNat
    if n < 0x80 then [n]
    else if n < 0x800 then [0xC0 + n / 0x40, 0x80 + n % 0x40]
    else if n < 0x10000 then
      [0xE0 + n / 0x1000, 0x80 + (n / 0x40) % 0x40, 0x80 + n % 0x40]
    else
      [0xF0 + n / 0x40000, 0x80 + (n / 0x1000) % 0x40, 0x80 + (n / 0x40) % 0x40,
       0x80 + n % 0x40])

def M32 : ℕ := 2 ^ 32

def rotr32 (x n : ℕ) : ℕ := (x / 2 ^ n + x % 2 ^ n * 2 ^ (32 - n)) % M32

def shr32 (x n : ℕ) : ℕ := x / 2 ^ n

def xor3 (a b c : ℕ) : ℕ := Nat.xor (Nat.xor a b) c

def not32 (x : ℕ) : ℕ := M32 - 1 - x % M32

def bigSigma0 (x : ℕ) : ℕ := xor3 (rotr32 x 2) (rotr32 x 13) (rotr32 x 22)

def bigSigma1 (x : ℕ) : ℕ := xor3 (rotr32 x 6) (rotr32 x 11) (rotr32 x 25)

def smallSigma0 (x : ℕ) : ℕ := xor3 (rotr32 x 7) (rotr32 x 18) (shr32 x 3)

def smallSigma1 (x : ℕ) : ℕ := xor3 (rotr32 x 17) (rotr32 x 19) (shr32 x 10)

def chF (x y z : ℕ) : ℕ := Nat.xor (Nat.land x y) (Nat.land (not32 x) z)

def majF (x y z : ℕ) : ℕ := xor3 (Nat.land x y) (Nat.land x z) (Nat.land y z)

/-- The 64 SHA-256 round constants (decimal). -/
def shaK : List ℕ := [
  1116352408, 1899447441, 3049323471, 3921009573, 961987163, 1508970993,
  2453635748, 2870763221, 3624381080, 310598401, 607225278, 1426881987,
  1925078388, 2162078206, 2614888103, 3248222580, 3835390401, 4022224774,
  264347078, 604807628, 770255983, 1249150122, 1555081692, 1996064986,
  2554220882, 2821834349, 2952996808, 3210313671, 3336571891, 3584528711,
  113926993, 338241895, 666307205, 773529912, 1294757372, 1396182291,
  1695183700, 1986661051, 2177026350, 2456956037, 2730485921, 2820302411,
  3259730800, 3345764771, 3516065817, 3600352804, 4094571909, 275423344,
  430227734, 506948616, 659060556, 883997877, 958139571, 1322822218,
  1537002063, 1747873779, 1955562222, 2024104815, 2227730452, 2361852424,
  2428436474, 2756734187, 3204031479, 3329325298]

/-- The SHA-256 initial hash value (decimal). -/
def shaH0 : List ℕ := [
  1779033703, 3144134277, 1013904242, 2773480762,
  1359893119, 2600822924, 528734635, 1541459225]

/-- Big-endian byte rendering of `x` on `n` bytes. -/
def beBytes (n x : ℕ) : List ℕ :=
  (List.range n).map (fun j => x / 2 ^ (8 * (n - 1 - j)) % 256)

/-- Merkle–Damgård padding to a multiple of 64 bytes. -/
def shaPad (msg : List ℕ) : List ℕ :=
  msg ++ [0x80] ++ List.replicate ((119 - msg.length % 64) % 64) 0
    ++ beBytes 8 (8 * msg.length)

/-- Big-endian 32-bit word at byte offset `i`. -/
def beWord (b : List ℕ) (i : ℕ) : ℕ :=
  b.getD i 0 * 0x1000000 + b.getD (i + 1) 0 * 0x10000
    + b.getD (i + 2) 0 * 0x100 + b.getD (i + 3) 0

/-- Extend the 16-word schedule by `n` further words. -/
def shaExtend : ℕ → List ℕ → List ℕ
  | 0, w => w
  | n + 1, w =>
    let t := w.length
    shaExtend n (w ++ [(smallSigma1 (w.getD (t - 2) 0) + w.getD (t - 7) 0
      + smallSigma0 (w.getD (t - 15) 0) + w.getD (t - 16) 0) % M32])

/-- One compression round on the 8-word working state. -/
def shaRound (st : List ℕ) (kw : ℕ × ℕ) : List ℕ :=
  let a := st.getD 0 0
  let b := st.getD 1 0
  let c := st.getD 2 0
  let d := st.getD 3 0
  let e := st.getD 4 0
  let f := st.getD 5 0
  let g := st.getD 6 0
  let h := st.getD 7 0
  let t1 := (h + bigSigma1 e + chF e f g + kw.1 + kw.2) % M32
  let t2 := (bigSigma0 a + majF a b c) % M32
  [(t1 + t2) % M32, a, b, c, (d + t1) % M32, e, f, g]

/-- Process one 64-byte block. -/
def shaBlock (H block : List ℕ) : List ℕ :=
  let w16 := (List.range 16).map (fun i => beWord block (4 * i))
  let w := shaExtend 48 w16
  let st := (shaK.zip w).foldl shaRound H
  (H.zip st).map (fun p => (p.1 + p.2) % M32)

/-- Process `n` blocks of the padded message. -/
def shaBlocks : ℕ → List ℕ → List ℕ → List ℕ
  | 0, H, _ => H
  | n + 1, H, msg => shaBlocks n (shaBlock H (msg.take 64)) (msg.drop 64)

/-- SHA-256 digest of a byte list as one 256-bit natural number. -/
def sha256 (msg : List ℕ) : ℕ :=
  let p := shaPad msg
  let H := shaBlocks (p.length / 64) shaH0 p
  (List.range 8).foldl (fun acc i => acc * M32 + H.getD i 0 % M32) 0

/-- `_sha_seed`: `int(sha256(s).hexdigest()[:12], 16)`, the top 48 bits of the
digest. -/
def shaSeed (s : String) : ℕ := sha256 (utf8Bytes s) / 2 ^ 208

/-- The seed string `f"{pid}|{week_id}|diet|{nonce}"` of `diversify_meals`. -/
def seedString (pid wid : String) (nonce : ℕ) : String :=
  pid ++ "|" ++ wid ++ "|diet|" ++ toString nonce

theorem foldAcc_lt (l : List ℕ) (g : ℕ → ℕ) :
    ∀ acc k : ℕ, acc < 2 ^ (32 * k) →
      l.foldl (fun a i => a * M32 + g i % M32) acc < 2 ^ (32 * (k + l.length)) := by
  induction l with
  | nil =>
    intro acc k h
    simpa using h
  | cons x t ih =>
    intro acc k h
    have hstep : acc * M32 + g x % M32 < 2 ^ (32 * (k + 1)) := by
      have hm : g x % M32 < M32 := Nat.mod_lt _ (by unfold M32; positivity)
      have h2 : acc * M32 + g x % M32 < (acc + 1) * M32 := by
        have := Nat.succ_le_of_lt hm
        calc acc * M32 + g x % M32 < acc * M32 + M32 := by omega
          _ = (acc + 1) * M32 := by ring
      have h3 : (acc + 1) * M32 ≤ 2 ^ (32 * k) * M32 :=
        Nat.mul_le_mul_right _ (Nat.succ_le_of_lt h)
      calc acc * M32 + g x % M32 < 2 ^ (32 * k) * M32 := lt_of_lt_of_le h2 h3
        _ = 2 ^ (32 * (k + 1)) := by
          unfold M32
          rw [← pow_add]
          ring_nf
    have h4 := ih _ (k + 1) hstep
    have h5 : 32 * (k + 1 + t.length) = 32 * (k + (x :: t).length) := by
      simp [List.length_cons]
      ring
    rw [h5] at h4
    exact h4

theorem sha256_lt (msg : List ℕ) : sha256 msg < 2 ^ 256 := by
  have h := foldAcc_lt (List.range 8)
    (fun i => (shaBlocks ((shaPad msg).length / 64) shaH0 (shaPad msg)).getD i 0)
    0 0 (by norm_num)
  simp only [List.length_range] at h
  exact lt_of_lt_of_eq h (by norm_num)

theorem shaSeed_lt (s : String) : shaSeed s < 2 ^ 48 := by
  unfold shaSeed
  have h := sha256_lt (utf8Bytes s)
  have h2 : (2 : ℕ) ^ 256 = 2 ^ 48 * 2 ^ 208 := by
    rw [← pow_add]
  exact Nat.div_lt_of_lt_mul (by rw [mul_comm, ← h2]; exact h)

/-! ## The claims -/

theorem ensure_total_zero_eq (x : Jmap) (k : String) (hk : k ∈ totalKeys)
    (hmk : mkOfTotal k ∈ mealNumTags) (h0 : pyFD 0 (getV x k) = 0) :
    pyFD 0 (getV (ensureDietShape x) k) = mealSum (ensureDietShape x) (mkOfTotal k) := by
  rw [getV_ensure_total x k hk]
  show totVal x k = mealSum (ensureDietShape x) (mkOfTotal k)
  show (if pyFD 0 (getV x k) = 0 then mealSum x (mkOfTotal k) else pyFD 0 (getV x k))
      = mealSum (ensureDietShape x) (mkOfTotal k)
  rw [if_pos h0, mealSum_ensure x _ hmk]

theorem qlit_le_pyRound_clamp (nd : ℕ) (x lo hi : ℚ) (z : ℤ) (hz : lo = (z : ℚ)) :
    lo ≤ pyRound nd (clampQ x lo hi) := by
  subst hz
  exact intCast_le_pyRound nd _ z (le_clampQ _ _ _)

theorem pyRound_clamp_le_qlit (nd : ℕ) (x lo hi : ℚ) (z : ℤ) (hz : hi = (z : ℚ))
    (h : lo ≤ hi) : pyRound nd (clampQ x lo hi) ≤ hi := by
  subst hz
  exact pyRound_le_intCast nd _ z (clampQ_le _ _ _ h)

/-- Any window of four consecutive pool names starting at `o ≤ 8` consists of
non-empty, pairwise distinct strings. -/
theorem saudi_window_distinct : ∀ o < 9,
    (SAUDI_MEAL_NAMES.getD o "" ≠ "" ∧
     SAUDI_MEAL_NAMES.getD (o + 1) "" ≠ "" ∧
     SAUDI_MEAL_NAMES.getD (o + 2) "" ≠ "" ∧
     SAUDI_MEAL_NAMES.getD (o + 3) "" ≠ "") ∧
    (SAUDI_MEAL_NAMES.getD o "" ≠ SAUDI_MEAL_NAMES.getD (o + 1) "" ∧
     SAUDI_MEAL_NAMES.getD o "" ≠ SAUDI_MEAL_NAMES.getD (o + 2) "" ∧
     SAUDI_MEAL_NAMES.getD o "" ≠ SAUDI_MEAL_NAMES.getD (o + 3) "" ∧
     SAUDI_MEAL_NAMES.getD (o + 1) "" ≠ SAUDI_MEAL_NAMES.getD (o + 2) "" ∧
     SAUDI_MEAL_NAMES.getD (o + 1) "" ≠ SAUDI_MEAL_NAMES.getD (o + 3) "" ∧
     SAUDI_MEAL_NAMES.getD (o + 2) "" ≠ SAUDI_MEAL_NAMES.getD (o + 3) "") := by
  decide

/-- The all-zero draw stream. -/
def U0 : RS := fun _ => 0

theorem U0_ok : StreamOK U0 := fun _ => ⟨le_refl 0, by norm_num [U0]⟩

/-- `ensure_diet_shape` input with one stated total and no meal data. -/
def cxTotOnly : Jmap := jmapOf [("Total_kcal_target_kcal", .vnum 500)]

/-- `ensure_diet_shape` input with a nonzero total and one per-meal value. -/
def cxTotMixed : Jmap :=
  jmapOf [("Total_kcal_target_kcal", .vnum 500), ("1st_meal_carbs_g", .vnum 10)]

/-- A week-1 persona: weight stated as the string `"70.005"`, muscle 30 kg,
high adherence, 5 training days, 8 h sleep, goal `muscle gain`. -/
def cxPersona : Jmap := jmapOf [("Weight_kg", .vstr "70.005"), ("Muscle_mass_kg", .vnum 30),
  ("Fat_percent", .vnum 20), ("Days_per_week", .vnum 5), ("Sleep_hours", .vnum 8),
  ("Adherence_propensity", .vstr "High"), ("Primary_goal", .vstr "muscle gain")]

def cxDiet : Jmap := jmapOf [("Total_kcal_target_kcal", .vnum 2000)]

/-- Draws for `build_week1_payloads`: multiplier noise near the top, a weight
delta of exactly 0.107 kg and a muscle draw near the range's top. -/
def cxStream : RS := fun i =>
  if i = 0 then 5/6 else if i = 1 then 13924149/50656543 else if i = 2 then 99/100 else 0

/-- Lunch draws giving the largest portions of the densest items. -/
def cxHi : RS := fun i =>
  if i = 1 then 50/51 else if i = 2 then 4/9 else if i = 3 then 50/51
  else if i = 5 then 40/41 else if i = 7 then 100/101 else 0

/-- Lunch draws giving the smallest portions of the lightest items. -/
def cxLo : RS := fun _ => 0

/-- Attempt streams for `_compose_meal`: every regular attempt draws `cxHi`
(out of band), the fallback attempt 999 draws `cxLo`. -/
def cxXi : ℕ → RS := fun a => if a < 12 then cxHi else cxLo

/-- Claim C1 (amended): every diet returned by `diversify_meals` has each of
the six totals within 0.2 of the sum of its four per-meal values (the four
shares are rounded to one decimal, 0.05 each); `ensure_diet_shape` guarantees
agreement only for a total whose lenient coercion is zero, where the
recomputation from the (possibly non-zero) per-meal values makes the two
sides exactly equal. -/
theorem macro_consistency :
    (∀ (fuel : ℕ) (U : ℕ → RS) (obj persona : Jmap) (last : Option Jmap)
        (nonce : ℕ) (d : Jmap), (∀ n, StreamOK (U n)) →
        diversifyF fuel U obj persona last nonce = some d →
        ∀ tp ∈ totalPairs, |pyFD 0 (getV d tp.1) - mealSum d tp.2| ≤ 1/5)
    ∧ (∀ x : Jmap, ∀ tp ∈ totalPairs, pyFD 0 (getV x tp.1) = 0 →
        pyFD 0 (getV (ensureDietShape x) tp.1) = mealSum (ensureDietShape x) tp.2) := by
  constructor
  · intro fuel U obj persona last nonce d hU hsome tp htp
    obtain ⟨o, n2, hd⟩ := diversifyF_some_shape fuel U obj persona last nonce d hsome
    rw [hd]
    exact diversifyOnce_totals_close o persona (U n2) (hU n2) tp htp
  · intro x tp htp h0
    fin_cases htp <;> exact ensure_total_zero_eq x _ (by decide) (by decide) h0

/-- Delta/post reconciliation and post clamps of `build_week1_payloads`. -/
theorem buildWeek1_delta_consistency (persona diet : Jmap) (u : RS) :
    (buildWeek1 persona diet u).deltaW
      = pyRound 2 ((buildWeek1 persona diet u).postW - preWRaw persona) ∧
    (buildWeek1 persona diet u).deltaMus
      = pyRound 2 ((buildWeek1 persona diet u).postMus - preMusRaw persona) ∧
    (buildWeek1 persona diet u).deltaFat
      = pyRound 2 ((buildWeek1 persona diet u).postFat - preFatRaw persona) ∧
    (30 : ℚ) ≤ (buildWeek1 persona diet u).postW ∧
    (buildWeek1 persona diet u).postW ≤ 250 ∧
    (8 : ℚ) ≤ (buildWeek1 persona diet u).postMus ∧
    (buildWeek1 persona diet u).postMus ≤ 120 ∧
    (3 : ℚ) ≤ (buildWeek1 persona diet u).postFat ∧
    (buildWeek1 persona diet u).postFat ≤ 65 := by
  refine ⟨rfl, rfl, rfl, ?_, ?_, ?_, ?_, ?_, ?_⟩
  · exact qlit_le_pyRound_clamp 2 _ 30 250 30 (by norm_num)
  · exact pyRound_clamp_le_qlit 2 _ 30 250 250 (by norm_num) (by norm_num)
  · exact qlit_le_pyRound_clamp 2 _ 8 120 8 (by norm_num)
  · exact pyRound_clamp_le_qlit 2 _ 8 120 120 (by norm_num) (by norm_num)
  · exact qlit_le_pyRound_clamp 2 _ 3 65 3 (by norm_num)
  · exact pyRound_clamp_le_qlit 2 _ 3 65 65 (by norm_num) (by norm_num)

/-- Claim C2 (amended): in `build_week1_payloads` each delta field is the
two-decimal rounding of its post value minus the raw (pre-rounding) pre
value, and the post values are clamped into the broad ranges `[30, 250]`,
`[8, 120]` and `[3, 65]`; in `simulate_week_with_claude_fallback` each delta
field is the two-decimal rounding of the raw post minus the raw pre value
(weight and muscle posts are exactly `pre + delta` before rounding, with no
clamp at all) and the post fat percentage is clamped into `[5, 60]`.
Neither simulator imposes the claimed weekly bounds 1.2 / 0.4 / 1.2 on the
deltas, clamps an out-of-bound delta, or re-derives a post value from a
clamped delta. -/
theorem weekly_delta_consistency :
    (∀ (persona diet : Jmap) (u : RS),
      (buildWeek1 persona diet u).deltaW
        = pyRound 2 ((buildWeek1 persona diet u).postW - preWRaw persona) ∧
      (buildWeek1 persona diet u).deltaMus
        = pyRound 2 ((buildWeek1 persona diet u).postMus - preMusRaw persona) ∧
      (buildWeek1 persona diet u).deltaFat
        = pyRound 2 ((buildWeek1 persona diet u).postFat - preFatRaw persona) ∧
      (30 : ℚ) ≤ (buildWeek1 persona diet u).postW ∧
      (buildWeek1 persona diet u).postW ≤ 250 ∧
      (8 : ℚ) ≤ (buildWeek1 persona diet u).postMus ∧
      (buildWeek1 persona diet u).postMus ≤ 120 ∧
      (3 : ℚ) ≤ (buildWeek1 persona diet u).postFat ∧
      (buildWeek1 persona diet u).postFat ≤ 65)
    ∧ (∀ (persona diet : Jmap) (u : RS),
      (simulateFallback persona diet u).deltaW
        = pyRound 2 (fbPostW persona u - fbPreW persona) ∧
      (simulateFallback persona diet u).deltaMus
        = pyRound 2 (fbPostM persona u - fbPreM persona) ∧
      (simulateFallback persona diet u).deltaFat
        = pyRound 2 (fbPostF persona u - fbPreF persona) ∧
      (simulateFallback persona diet u).postW = pyRound 2 (fbPostW persona u) ∧
      (simulateFallback persona diet u).postMus = pyRound 2 (fbPostM persona u) ∧
      (5 : ℚ) ≤ (simulateFallback persona diet u).postFat ∧
      (simulateFallback persona diet u).postFat ≤ 60) := by
  constructor
  · exact buildWeek1_delta_consistency
  · intro persona diet u
    refine ⟨?_, ?_, rfl, rfl, rfl, ?_, ?_⟩
    · show pyRound 2 (fbDW persona u) = pyRound 2 (fbPostW persona u - fbPreW persona)
      rw [show fbPostW persona u - fbPreW persona = fbDW persona u from by
        unfold fbPostW; ring]
    · show pyRound 2 (fbDM persona u) = pyRound 2 (fbPostM persona u - fbPreM persona)
      rw [show fbPostM persona u - fbPreM persona = fbDM persona u from by
        unfold fbPostM; ring]
    · show (5 : ℚ) ≤ pyRound 2 (fbPostF persona u)
      have h5 : ((5 : ℤ) : ℚ) ≤ fbPostF persona u := by
        unfold fbPostF
        push_cast
        exact le_max_left _ _
      exact_mod_cast intCast_le_pyRound 2 _ 5 h5
    · show pyRound 2 (fbPostF persona u) ≤ 60
      have h60 : fbPostF persona u ≤ ((60 : ℤ) : ℚ) := by
        unfold fbPostF
        push_cast
        exact max_le (by norm_num) (min_le_right _ _)
      exact_mod_cast pyRound_le_intCast 2 _ 60 h60

/-- Claim C3: whenever the modelled `diversify_meals` returns a diet the
recursion guard is false for it — the four meals are not all numerically
identical (tolerance `1e-6`) under one shared name, and the result is not
similar to last week's — and whenever a pass's diet trips the guard the
function recurses with `nonce + 1` (the source imposes no recursion bound;
the model makes the missing bound an explicit fuel parameter). -/
theorem diversify_non_degenerate :
    (∀ (fuel : ℕ) (U : ℕ → RS) (obj persona : Jmap) (last : Option Jmap)
        (nonce : ℕ) (d : Jmap),
        diversifyF fuel U obj persona last nonce = some d →
        allMealsIdentical d = false ∧ similarOverview d last = false)
    ∧ (∀ (fuel : ℕ) (U : ℕ → RS) (obj persona : Jmap) (last : Option Jmap) (nonce : ℕ),
        badDiet (diversifyOnce obj persona (U nonce)) last = true →
        diversifyF (fuel + 1) U obj persona last nonce
          = diversifyF fuel U (diversifyOnce obj persona (U nonce)) persona last (nonce + 1)) := by
  constructor
  · intro fuel U obj persona last nonce d h
    have hb := diversifyF_not_bad fuel U obj persona last nonce d h
    simp only [badDiet, Bool.or_eq_false_iff] at hb
    exact hb
  · exact fun fuel U obj persona last nonce hb =>
      diversifyF_recurse fuel U obj persona last nonce hb

/-- Claim C4 (amended): `diversify_meals` is deterministic — the pass over the
dict depends on `pid`, `week_id` and `nonce` only through the 48-bit truncated
SHA-256 seed, so two calls whose seeds agree produce identical passes (and in
particular identical arguments give identical output).  That two calls
differing only in the nonce always differ is false; see the counterexample. -/
theorem diversify_seed_determinism (pid wid pid2 wid2 : String) (n m : ℕ)
    (S : ℕ → RS) (obj persona : Jmap)
    (h : shaSeed (seedString pid wid n) = shaSeed (seedString pid2 wid2 m)) :
    diversifyOnce obj persona (S (shaSeed (seedString pid wid n)))
      = diversifyOnce obj persona (S (shaSeed (seedString pid2 wid2 m))) := by
  rw [h]

theorem diversify_seed_determinism_witness :
    shaSeed (seedString "P01" "2025-W46" 0) = shaSeed (seedString "P01" "2025-W46" 0) ∧
    diversifyOnce jempty jempty
        ((fun _ => U0) (shaSeed (seedString "P01" "2025-W46" 0)))
      = diversifyOnce jempty jempty
        ((fun _ => U0) (shaSeed (seedString "P01" "2025-W46" 0))) :=
  ⟨rfl, diversify_seed_determinism "P01" "2025-W46" "P01" "2025-W46" 0 0
    (fun _ => U0) jempty jempty rfl⟩

/-- Claim C4 counterexample: the seed keeps only 12 hex digits of the digest,
so nonce-to-seed is a map from the infinite set of nonces into at most `2^48`
values: two distinct nonces exist whose seeds — and hence derived streams and
whole passes — coincide, so varying only the nonce need not change any meal
name or macro value. -/
theorem diversify_nonce_collision :
    ∃ n m : ℕ, n ≠ m ∧
      shaSeed (seedString "P01" "2025-W46" n) = shaSeed (seedString "P01" "2025-W46" m) ∧
      ∀ (S : ℕ → RS) (obj persona : Jmap),
        diversifyOnce obj persona (S (shaSeed (seedString "P01" "2025-W46" n)))
          = diversifyOnce obj persona (S (shaSeed (seedString "P01" "2025-W46" m))) := by
  obtain ⟨n, m, hne, heq⟩ := Finite.exists_ne_map_eq_of_infinite
    (fun k : ℕ => (⟨shaSeed (seedString "P01" "2025-W46" k),
      shaSeed_lt (seedString "P01" "2025-W46" k)⟩ : Fin (2 ^ 48)))
  have heq2 : shaSeed (seedString "P01" "2025-W46" n)
      = shaSeed (seedString "P01" "2025-W46" m) := congrArg Fin.val heq
  exact ⟨n, m, hne, heq2, fun S obj persona => by rw [heq2]⟩

/-- Claim C5: both normalizers are idempotent on every input — a second pass
of `ensure_diet_shape` changes nothing on any dict, and a second pass of
`normalize_to_schema` returns the same association list, order included. -/
theorem normalizers_idempotent :
    (∀ x : Jmap, ensureDietShape (ensureDietShape x) = ensureDietShape x)
    ∧ (∀ p : Alist, normalizeToSchema (normalizeToSchema p) = normalizeToSchema p) :=
  ⟨ensureDietShape_idem, normalizeToSchema_idem⟩

/-- Claim C6 (amended): week labels use the `Week_YYYY_WW` form:
`next_week_id` sends `Week_2025_46` to `Week_2025_47`, and the 54-week
sequence from `Week_2025_46` has exactly 54 labels whether the start week is
included or not (not 55 in the inclusive case), all parseable, consecutive in
the ISO calendar and strictly increasing — no gaps and no duplicates. -/
theorem week_sequence_correct :
    nextWeekId "Week_2025_46" = some "Week_2025_47" ∧
    (weekIdSequence "Week_2025_46" 54 true).isSome = true ∧
    ((weekIdSequence "Week_2025_46" 54 true).getD []).length = 54 ∧
    (weekPairsOf ((weekIdSequence "Week_2025_46" 54 true).getD [])).length = 54 ∧
    chainOK isoSucc (weekPairsOf ((weekIdSequence "Week_2025_46" 54 true).getD [])) = true ∧
    pairwiseOK isoLt (weekPairsOf ((weekIdSequence "Week_2025_46" 54 true).getD [])) = true ∧
    (weekIdSequence "Week_2025_46" 54 false).isSome = true ∧
    ((weekIdSequence "Week_2025_46" 54 false).getD []).length = 54 ∧
    (weekPairsOf ((weekIdSequence "Week_2025_46" 54 false).getD [])).length = 54 ∧
    chainOK isoSucc (weekPairsOf ((weekIdSequence "Week_2025_46" 54 false).getD [])) = true ∧
    pairwiseOK isoLt (weekPairsOf ((weekIdSequence "Week_2025_46" 54 false).getD [])) = true := by
  set_option maxRecDepth 16000 in decide

/-- Claim C6 counterexample: the spec's label format does not occur — on
`"2025-W46"` the parser raises (no label is produced), the actual labels
being `Week_YYYY_WW`; and the 54-week inclusive sequence has 54 labels, not
55. -/
theorem week_label_counterexample :
    nextWeekId "2025-W46" = none ∧
    ((weekIdSequence "Week_2025_46" 54 true).getD []).length ≠ 55 := by
  set_option maxRecDepth 8000 in decide

/-- Claim C7: every meal composed by `_compose_meal` reports as kcal the
one-decimal rounding of `4*carb + 4*prot + 9*fat` over the meal's summed
macro grams, overriding whatever the per-100 table's kcal column sums to. -/
theorem composeMeal_kcal_rule (slot : ℕ) (Ξ : ℕ → RS) :
    (composeMeal slot Ξ).2.kcal
      = pyRound 1 (4 * (composeMeal slot Ξ).2.carb + 4 * (composeMeal slot Ξ).2.prot
          + 9 * (composeMeal slot Ξ).2.fat) := by
  obtain ⟨a, _, he⟩ := composeMeal_total slot Ξ
  rw [he]
  exact (sumMacros_kcal_rule (composeSlot slot (Ξ a)).2).1

/-- Claim C8 (amended): `_compose_meal` tries attempts 0–11 and accepts the
first whose reconciled kcal lies in `[250, 1200]`; when an in-band attempt
below 12 exists the accepted composition is such an attempt's, when all 12
are out of band it does not fall back to the last attempt but builds and
accepts one fresh composition with attempt counter 999, band unchecked; it
always returns the composition of some attempt (`a < 12` or `a = 999`),
never an error. -/
theorem composeMeal_retry_policy :
    (∀ (slot : ℕ) (Ξ : ℕ → RS),
        (∀ a < 12, bandOK (sumMacros (composeSlot slot (Ξ a)).2).kcal = false) →
        composeMeal slot Ξ
          = ((composeSlot slot (Ξ 999)).1, sumMacros (composeSlot slot (Ξ 999)).2))
    ∧ (∀ (slot : ℕ) (Ξ : ℕ → RS),
        (∃ a < 12, bandOK (sumMacros (composeSlot slot (Ξ a)).2).kcal = true) →
        ∃ b < 12, bandOK (sumMacros (composeSlot slot (Ξ b)).2).kcal = true ∧
          composeMeal slot Ξ
            = ((composeSlot slot (Ξ b)).1, sumMacros (composeSlot slot (Ξ b)).2))
    ∧ (∀ (slot : ℕ) (Ξ : ℕ → RS), ∃ a, (a < 12 ∨ a = 999) ∧
        composeMeal slot Ξ
          = ((composeSlot slot (Ξ a)).1, sumMacros (composeSlot slot (Ξ a)).2)) := by
  refine ⟨composeMeal_exhausted, ?_, composeMeal_total⟩
  intro slot Ξ ⟨a, ha, hpa⟩
  cases hfind : (List.range 12).find?
      (fun x => bandOK (sumMacros (composeSlot slot (Ξ x)).2).kcal) with
  | none =>
    have hnone := List.find?_eq_none.mp hfind a (List.mem_range.mpr ha)
    simp only [hpa] at hnone
    exact absurd trivial hnone
  | some b =>
    obtain ⟨hres, hband⟩ := composeMeal_inband slot Ξ b hfind
    exact ⟨b, List.mem_range.mp (List.mem_of_find?_eq_some hfind), hband, hres⟩

/-- Claim C9 (amended): the totals fallback of `ensure_diet_shape` is
per-field, not all-or-nothing — each of the six totals is independently
replaced by the sum of its four per-meal values exactly when that total's own
lenient coercion is zero, regardless of the other five. -/
theorem totals_fallback_per_field (x : Jmap) (tp : String × String)
    (htp : tp ∈ totalPairs) :
    getV (ensureDietShape x) tp.1
      = .vnum (if pyFD 0 (getV x tp.1) = 0 then mealSum x tp.2
          else pyFD 0 (getV x tp.1)) := by
  fin_cases htp <;>
    · rw [getV_ensure_total x _ (by decide)]
      simp only [totVal]
      rfl

theorem totals_fallback_per_field_witness :
    ("Total_carbs_g", "carbs_g") ∈ totalPairs ∧
    getV (ensureDietShape jempty) "Total_carbs_g"
      = .vnum (if pyFD 0 (getV jempty "Total_carbs_g") = 0 then mealSum jempty "carbs_g"
          else pyFD 0 (getV jempty "Total_carbs_g")) :=
  ⟨by decide, totals_fallback_per_field jempty ("Total_carbs_g", "carbs_g") (by decide)⟩

/-- Claim C10: any pass of `diversify_meals` assigns the four meal-name
fields four consecutive entries of the 13-name pool starting at an offset at
most 8 — the window never wraps — and those four names are non-empty and
pairwise distinct. -/
theorem diversify_names_distinct (obj p : Jmap) (u : RS) (hu : StreamOK u) :
    ∃ o : ℕ, o ≤ 8 ∧
      getV (diversifyOnce obj p u) "1st_meal" = .vstr (SAUDI_MEAL_NAMES.getD o "") ∧
      getV (diversifyOnce obj p u) "2nd_meal" = .vstr (SAUDI_MEAL_NAMES.getD (o + 1) "") ∧
      getV (diversifyOnce obj p u) "3rd_meal" = .vstr (SAUDI_MEAL_NAMES.getD (o + 2) "") ∧
      getV (diversifyOnce obj p u) "4th_meal" = .vstr (SAUDI_MEAL_NAMES.getD (o + 3) "") ∧
      (SAUDI_MEAL_NAMES.getD o "" ≠ "" ∧
       SAUDI_MEAL_NAMES.getD (o + 1) "" ≠ "" ∧
       SAUDI_MEAL_NAMES.getD (o + 2) "" ≠ "" ∧
       SAUDI_MEAL_NAMES.getD (o + 3) "" ≠ "") ∧
      (SAUDI_MEAL_NAMES.getD o "" ≠ SAUDI_MEAL_NAMES.getD (o + 1) "" ∧
       SAUDI_MEAL_NAMES.getD o "" ≠ SAUDI_MEAL_NAMES.getD (o + 2) "" ∧
       SAUDI_MEAL_NAMES.getD o "" ≠ SAUDI_MEAL_NAMES.getD (o + 3) "" ∧
       SAUDI_MEAL_NAMES.getD (o + 1) "" ≠ SAUDI_MEAL_NAMES.getD (o + 2) "" ∧
       SAUDI_MEAL_NAMES.getD (o + 1) "" ≠ SAUDI_MEAL_NAMES.getD (o + 3) "" ∧
       SAUDI_MEAL_NAMES.getD (o + 2) "" ≠ SAUDI_MEAL_NAMES.getD (o + 3) "") := by
  obtain ⟨o, ho, h1, h2, h3, h4⟩ := diversifyOnce_names obj p u hu
  obtain ⟨hne, hdist⟩ := saudi_window_distinct o (by omega)
  exact ⟨o, ho, h1, h2, h3, h4, hne, hdist⟩

theorem diversify_names_distinct_witness :
    StreamOK U0 ∧
    (∃ o : ℕ, o ≤ 8 ∧
      getV (diversifyOnce jempty jempty U0) "1st_meal"
        = .vstr (SAUDI_MEAL_NAMES.getD o "") ∧
      getV (diversifyOnce jempty jempty U0) "2nd_meal"
        = .vstr (SAUDI_MEAL_NAMES.getD (o + 1) "") ∧
      getV (diversifyOnce jempty jempty U0) "3rd_meal"
        = .vstr (SAUDI_MEAL_NAMES.getD (o + 2) "") ∧
      getV (diversifyOnce jempty jempty U0) "4th_meal"
        = .vstr (SAUDI_MEAL_NAMES.getD (o + 3) "") ∧
      (SAUDI_MEAL_NAMES.getD o "" ≠ "" ∧
       SAUDI_MEAL_NAMES.getD (o + 1) "" ≠ "" ∧
       SAUDI_MEAL_NAMES.getD (o + 2) "" ≠ "" ∧
       SAUDI_MEAL_NAMES.getD (o + 3) "" ≠ "") ∧
      (SAUDI_MEAL_NAMES.getD o "" ≠ SAUDI_MEAL_NAMES.getD (o + 1) "" ∧
       SAUDI_MEAL_NAMES.getD o "" ≠ SAUDI_MEAL_NAMES.getD (o + 2) "" ∧
       SAUDI_MEAL_NAMES.getD o "" ≠ SAUDI_MEAL_NAMES.getD (o + 3) "" ∧
       SAUDI_MEAL_NAMES.getD (o + 1) "" ≠ SAUDI_MEAL_NAMES.getD (o + 2) "" ∧
       SAUDI_MEAL_NAMES.getD (o + 1) "" ≠ SAUDI_MEAL_NAMES.getD (o + 3) "" ∧
       SAUDI_MEAL_NAMES.getD (o + 2) "" ≠ SAUDI_MEAL_NAMES.getD (o + 3) "")) :=
  ⟨U0_ok, diversify_names_distinct jempty jempty U0 U0_ok⟩

section
attribute [local semireducible] Rat.mul Rat.inv Rat.add Rat.sub Rat.ofScientific

/-- Claim C1 counterexample: `ensure_diet_shape` keeps a nonzero stated total
even when every per-meal value is zero — on `{"Total_kcal_target_kcal": 500}`
the total stays 500 while the four meal kcal values are 0, missing the
claimed 0.1 tolerance by 499.9. -/
theorem macro_consistency_counterexample :
    ("Total_kcal_target_kcal", "kcal_target_kcal") ∈ totalPairs ∧
    ¬ (|pyFD 0 (getV (ensureDietShape cxTotOnly) "Total_kcal_target_kcal")
        - mealSum (ensureDietShape cxTotOnly) "kcal_target_kcal"| ≤ 1/10) := by
  decide

/-- Claim C2 counterexample: on a high-adherence muscle-gain persona the
produced `delta_muscle_kg` is 0.54 kg, beyond the claimed 0.4 bound and not
clamped; and since the raw pre-weight `70.005` is not a two-decimal value,
`delta_weight_kg` (0.10) differs from `round(Post_weight_kg − Pre_weight_kg,
2)` computed from the logged fields (0.11). -/
theorem buildWeek1_bounds_counterexample :
    (buildWeek1 cxPersona cxDiet cxStream).deltaMus = 27/50 ∧
    ¬ |(buildWeek1 cxPersona cxDiet cxStream).deltaMus| ≤ 2/5 ∧
    (buildWeek1 cxPersona cxDiet cxStream).deltaW = 1/10 ∧
    (buildWeek1 cxPersona cxDiet cxStream).deltaW
      ≠ pyRound 2 ((buildWeek1 cxPersona cxDiet cxStream).postW
          - (buildWeek1 cxPersona cxDiet cxStream).preW) := by
  set_option maxRecDepth 8000 in decide

/-- Claim C8 counterexample: with every one of the 12 lunch attempts out of
band (each reconciled to 1252.1 kcal), `_compose_meal` does not accept the
last attempt's composition — it returns the distinct fallback composition of
attempt 999. -/
theorem composeMeal_fallback_counterexample :
    (∀ a < 12, bandOK (sumMacros (composeSlot 2 (cxXi a)).2).kcal = false) ∧
    composeMeal 2 cxXi
      ≠ ((composeSlot 2 (cxXi 11)).1, sumMacros (composeSlot 2 (cxXi 11)).2) := by
  set_option maxRecDepth 8000 in decide

/-- Claim C9 counterexample: with `Total_kcal_target_kcal = 500` nonzero and
a lone per-meal value `1st_meal_carbs_g = 10`, the missing `Total_carbs_g` is
still replaced by the fabricated sum 10 — the fallback fires per field, not
all-or-nothing. -/
theorem totals_fallback_counterexample :
    totVal cxTotMixed "Total_kcal_target_kcal" ≠ 0 ∧
    cxTotMixed "Total_carbs_g" = none ∧
    getV (ensureDietShape cxTotMixed) "Total_carbs_g" = .vnum 10 := by
  decide

end

end AiUsers
